import Mathlib

/-!
# Remote command execution over bastion hosts (cb-tumblebug, `mcis/remoteCommand.go`)

A shallow embedding of the remote-command core: target resolution and fan-out
(`RemoteCommandToMcis`), the per-VM unit (`RunRemoteCommand`,
`RunRemoteCommandAsync`), credential resolution (`VerifySshUserName`,
`GetVmSshKey`), the reachability probe (`CheckConnectivity`), the two-hop
command loop (`runSSH`) and the bastion registry (`SetBastionNodes`,
`GetBastionNodes`).

Conventions of the embedding:
* a Go `error` is an `Option String` (`none` is `nil`);
* a Go slice whose nil-ness the code observes is an `Option (List _)`
  (`none` is the nil slice, `some []` an allocated slice of length zero);
* a Go `map[int]string` is an association list with unique keys;
* code that may abort with a run-time panic returns `Exec`;
* the network and the SSH library are oracles passed as arguments.
-/

namespace CbTumblebug

/-! ## Go values -/

/-- Go `error`: `none` is `nil`, `some msg` is an error whose text is `msg`. -/
abbrev GoError := Option String

/-- Go slice with observable nil-ness: `none` is the nil slice. -/
abbrev Slice (α : Type) := Option (List α)

/-- Elements of a slice; the nil slice has none. -/
def sliceElems {α : Type} : Slice α → List α
  | none => []
  | some l => l

/-- Go `append(s, x)`: the result is never nil. -/
def sliceAppend {α : Type} (s : Slice α) (x : α) : Slice α :=
  some (sliceElems s ++ [x])

/-- Go `map[int]string`, kept as an association list with unique keys. -/
abbrev IntMap := List (Nat × String)

/-- Go `m[i] = v`: any earlier binding of `i` is replaced. -/
def mapSet (m : IntMap) (i : Nat) (v : String) : IntMap :=
  m.filter (fun p => p.1 != i) ++ [(i, v)]

/-- Go `m[i]` with the comma-ok form. -/
def mapGet (m : IntMap) (i : Nat) : Option String :=
  (m.find? (fun p => p.1 == i)).map Prod.snd

/-- Key set of a map. -/
def mapKeys (m : IntMap) : List Nat :=
  m.map Prod.fst

/-- Outcome of Go code that either returns or aborts with a run-time panic. -/
inductive Exec (α : Type) where
  | ret (a : α)
  | panic (msg : String)
deriving DecidableEq, Repr

/-- Sequencing of `Exec`: a panic aborts everything after it. -/
def Exec.bind {α β : Type} (x : Exec α) (f : α → Exec β) : Exec β :=
  match x with
  | .ret a => f a
  | .panic m => .panic m

/-! ## Data model -/

/-- Go `common.KeyValue`. -/
structure KeyValue where
  Key : String
  Value : String
deriving DecidableEq, Repr

/-- Go `mcir.TbSubnetInfo`, with the `BastionNodeIds` field that
`remoteCommand.go` reads and writes (a `[]string`, tested against nil). -/
structure TbSubnetInfo where
  Id : String
  Name : String
  IPv4_CIDR : String
  KeyValueList : List KeyValue
  Description : String
  BastionNodeIds : Slice String
deriving DecidableEq, Repr

/-- Go `mcir.TbVNetInfo`, the VNet aggregate. -/
structure TbVNetInfo where
  Id : String
  Name : String
  ConnectionName : String
  CidrBlock : String
  SubnetInfoList : List TbSubnetInfo
  Description : String
  CspVNetId : String
  CspVNetName : String
  Status : String
  KeyValueList : List KeyValue
  AssociatedObjectList : List String
  IsAutoGenerated : Bool
  SystemLabel : String
deriving DecidableEq, Repr

/-- The fields of the stored VM object that this code reads. -/
structure TbVmInfo where
  Id : String
  PublicIP : String
  PrivateIP : String
  SSHPort : String
  VNetId : String
  SubnetId : String
  SshKeyId : String
deriving DecidableEq, Repr

/-- The fields of the stored SSH-key resource read by `GetVmSshKey`. -/
structure TbSshKeyInfo where
  Id : String
  Username : String
  VerifiedUsername : String
  PrivateKey : String
deriving DecidableEq, Repr

/-- Go `BastionInfo`. -/
structure BastionInfo where
  VmId : Slice String
deriving DecidableEq, Repr

/-- Go `McisCmdReq`. -/
structure McisCmdReq where
  UserName : String
  Command : List String
deriving DecidableEq, Repr

/-- Go `SshCmdResult`. -/
structure SshCmdResult where
  McisId : String
  VmId : String
  VmIp : String
  Command : IntMap
  Stdout : IntMap
  Stderr : IntMap
  Err : GoError
deriving DecidableEq, Repr

/-- Go `sshInfo`. -/
structure sshInfo where
  UserName : String
  PrivateKey : String
  EndPoint : String
deriving DecidableEq, Repr

/-! ## Resource store -/

/-- The resource store as this code sees it: VM objects keyed by namespace,
fleet and id; VNet aggregates and SSH-key resources keyed by namespace and
their own id. -/
structure Store where
  vms : List (String × String × TbVmInfo)
  vnets : List (String × TbVNetInfo)
  sshKeys : List (String × TbSshKeyInfo)
deriving DecidableEq, Repr

/-- Modelled from the spec: `GetVmObject` (package mcis, not in the sources at
hand) is the spec's `GetVM(fleetId, vmId)`, which yields the VM's record and
is NotFound if the VM is absent. -/
def GetVmObject (s : Store) (nsId mcisId vmId : String) : TbVmInfo × GoError :=
  match s.vms.find? (fun e => e.1 == nsId && e.2.1 == mcisId && e.2.2.Id == vmId) with
  | some e => (e.2.2, none)
  | none => (⟨"", "", "", "", "", "", ""⟩,
      some ("failed to get the VM " ++ vmId ++ " in MCIS " ++ mcisId))

/-- Modelled from the spec: `GetVmIp` (package mcis, not in the sources at
hand) reads the VM's public address, private address and SSH port from its
record; an absent record leaves all three empty. -/
def GetVmIp (s : Store) (nsId mcisId vmId : String) : String × String × String :=
  let vm := (GetVmObject s nsId mcisId vmId).1
  (vm.PublicIP, vm.PrivateIP, vm.SSHPort)

/-- Modelled from the spec: `mcir.GetResource` for the VNet resource type (not
in the sources at hand) is the spec's `GetVNet(vnetId)`, NotFound if absent.
What it returns for this resource type is always a `TbVNetInfo`. -/
def GetResource (s : Store) (nsId vNetId : String) : Option TbVNetInfo × GoError :=
  match s.vnets.find? (fun e => e.1 == nsId && e.2.Id == vNetId) with
  | some e => (some e.2, none)
  | none => (none, some ("failed to get the vNet " ++ vNetId))

/-- Modelled from the spec: `mcir.UpdateResourceObject` for the VNet resource
type (not in the sources at hand) is the spec's `PutVNet(updatedAggregate)`, a
full-aggregate overwrite of the record stored under the aggregate's id. -/
def UpdateResourceObject (s : Store) (nsId : String) (obj : TbVNetInfo) : Store :=
  { s with
    vnets := s.vnets.map (fun e => if e.1 == nsId && e.2.Id == obj.Id then (nsId, obj) else e) }

/-! ## Bastion registry -/

/-- What one call of `SetBastionNodes` does: the returned message and error,
the `UpdateResourceObject` calls it made, and the store it leaves. -/
structure SetOutcome where
  msg : String
  err : GoError
  puts : List (String × TbVNetInfo)
  store : Store
deriving DecidableEq, Repr

/-- Text of the informational result for an association that is already there. -/
def msgAlreadyExists (bastionVmId subnetId vNetId : String) : String :=
  "Bastion (ID: " ++ bastionVmId ++ ") already exists in subnet (ID: " ++ subnetId ++
    ") in VNet (ID: " ++ vNetId ++ ")."

/-- Text of the result for a new association. -/
def msgSet (bastionVmId subnetId vNetId targetVmId mcisId : String) : String :=
  "Successfully set the bastion (ID: " ++ bastionVmId ++ ") for subnet (ID: " ++ subnetId ++
    ") in vNet (ID: " ++ vNetId ++ ") for VM (ID: " ++ targetVmId ++ ") in MCIS (ID: " ++
    mcisId ++ ")."

/-- Text of the SubnetNotFound error of `SetBastionNodes`. -/
def errSetSubnetNotFound (subnetId vNetId targetVmId mcisId nsId : String) : String :=
  "failed to set bastion. Subnet (ID: " ++ subnetId ++ ") not found in VNet (ID: " ++ vNetId ++
    ") for VM (ID: " ++ targetVmId ++ ") in MCIS (ID: " ++ mcisId ++
    ") under namespace (ID: " ++ nsId ++ ")"

/-- Text of the NoBastionAssigned error of `GetBastionNodes`. -/
def errNoBastion (subnetId vNetId targetVmId : String) : String :=
  "no assigned bastion in Subnet (ID: " ++ subnetId ++ ") of VNet (ID: " ++ vNetId ++
    ") for VM (ID: " ++ targetVmId ++ ")"

/-- Text of the SubnetNotFound error of `GetBastionNodes`. -/
def errGetSubnetNotFound (subnetId vNetId targetVmId : String) : String :=
  "failed to get bastion in Subnet (ID: " ++ subnetId ++ ") of VNet (ID: " ++ vNetId ++
    ") for VM (ID: " ++ targetVmId ++ ")"

/-- Go `list[i] = x` on a slice of subnets. -/
def setSubnetAt : List TbSubnetInfo → Nat → TbSubnetInfo → List TbSubnetInfo
  | [], _, _ => []
  | _ :: rest, 0, x => x :: rest
  | y :: rest, i + 1, x => y :: setSubnetAt rest i x

/-- The `for i, subnetInfo := range tempVNetInfo.SubnetInfoList` loop of
`SetBastionNodes`, from index `i` on, over the subnets `rest` still to visit. -/
def SetBastionNodes.loop (s : Store) (nsId mcisId targetVmId bastionVmId : String)
    (vmObj : TbVmInfo) (tempVNetInfo : TbVNetInfo) :
    Nat → List TbSubnetInfo → SetOutcome
  | _, [] =>
    ⟨"", some (errSetSubnetNotFound vmObj.SubnetId vmObj.VNetId targetVmId mcisId nsId), [], s⟩
  | i, subnetInfo :: rest =>
    if subnetInfo.Id == vmObj.SubnetId then
      if (sliceElems subnetInfo.BastionNodeIds).any (fun existingId => existingId == bastionVmId) then
        ⟨msgAlreadyExists bastionVmId subnetInfo.Id vmObj.VNetId, none, [], s⟩
      else
        let subnetInfo1 : TbSubnetInfo :=
          { subnetInfo with BastionNodeIds := sliceAppend subnetInfo.BastionNodeIds bastionVmId }
        let tempVNetInfo1 : TbVNetInfo :=
          { tempVNetInfo with
            SubnetInfoList := setSubnetAt tempVNetInfo.SubnetInfoList i subnetInfo1 }
        ⟨msgSet bastionVmId subnetInfo1.Id vmObj.VNetId targetVmId mcisId, none,
          [(nsId, tempVNetInfo1)], UpdateResourceObject s nsId tempVNetInfo1⟩
    else
      SetBastionNodes.loop s nsId mcisId targetVmId bastionVmId vmObj tempVNetInfo (i + 1) rest

/-- Go `SetBastionNodes`. -/
def SetBastionNodes (s : Store) (nsId mcisId targetVmId bastionVmId : String) : SetOutcome :=
  match GetVmObject s nsId mcisId targetVmId with
  | (_, some err) => ⟨"", some err, [], s⟩
  | (vmObj, none) =>
    match GetResource s nsId vmObj.VNetId with
    | (_, some err) => ⟨"", some err, [], s⟩
    | (none, none) => ⟨"", none, [], s⟩
    | (some tempVNetInfo, none) =>
      SetBastionNodes.loop s nsId mcisId targetVmId bastionVmId vmObj tempVNetInfo 0
        tempVNetInfo.SubnetInfoList

/-- The `for _, subnetInfo := range tempVNetInfo.SubnetInfoList` loop of
`GetBastionNodes`. -/
def GetBastionNodes.loop (targetVmId : String) (vmObj : TbVmInfo) :
    List TbSubnetInfo → BastionInfo × GoError
  | [] => (⟨none⟩, some (errGetSubnetNotFound vmObj.SubnetId vmObj.VNetId targetVmId))
  | subnetInfo :: rest =>
    if subnetInfo.Id == vmObj.SubnetId then
      if subnetInfo.BastionNodeIds == none then
        (⟨none⟩, some (errNoBastion vmObj.SubnetId vmObj.VNetId targetVmId))
      else
        (⟨subnetInfo.BastionNodeIds⟩, none)
    else
      GetBastionNodes.loop targetVmId vmObj rest

/-- Go `GetBastionNodes`. -/
def GetBastionNodes (s : Store) (nsId mcisId targetVmId : String) : BastionInfo × GoError :=
  match GetVmObject s nsId mcisId targetVmId with
  | (_, some err) => (⟨none⟩, some err)
  | (vmObj, none) =>
    match GetResource s nsId vmObj.VNetId with
    | (_, some err) => (⟨none⟩, some err)
    | (none, none) => (⟨none⟩, none)
    | (some tempVNetInfo, none) =>
      GetBastionNodes.loop targetVmId vmObj tempVNetInfo.SubnetInfoList

/-! ## Credentials -/

/-- Go `sshDefaultUserName`. -/
def sshDefaultUserName : List String := ["cb-user", "ubuntu", "root", "ec2-user"]

/-- Go `GetVmSshKey`. Its two `CBStore.Get` reads are lookups in the store:
the VM object gives the id of the SSH-key resource, the resource gives the
three strings. The source logs a failed read and goes on, so a record that is
not there leaves the unmarshalled content zero-valued. -/
def GetVmSshKey (s : Store) (nsId mcisId vmId : String) : String × String × String :=
  let sshKeyId :=
    match s.vms.find? (fun e => e.1 == nsId && e.2.1 == mcisId && e.2.2.Id == vmId) with
    | some e => e.2.2.SshKeyId
    | none => ""
  match s.sshKeys.find? (fun e => e.1 == nsId && e.2.Id == sshKeyId) with
  | some e => (e.2.Username, e.2.VerifiedUsername, e.2.PrivateKey)
  | none => ("", "", "")

/-- Go `VerifySshUserName`; `vmIp` and `sshPort` are unused by the live code. -/
def VerifySshUserName (s : Store) (nsId mcisId vmId _vmIp _sshPort givenUserName : String) :
    String × String × GoError :=
  match GetVmSshKey s nsId mcisId vmId with
  | (userName, _, privateKey) =>
    let theUserName :=
      if givenUserName != "" then givenUserName
      else if userName != "" then userName
      else sshDefaultUserName.getD 0 ""
    if theUserName == "" then
      ("", "", some "Could not find a valid username")
    else
      (theUserName, privateKey, none)

/-! ## Connectivity probe -/

/-- What a run of `CheckConnectivity` did on the network and the clock. -/
structure ProbeLog where
  dials : Nat
  sleeps : List Nat
deriving DecidableEq, Repr

/-- The `for i := 0; i < retrycheck; i++` loop of `CheckConnectivity`, with
`remaining = retrycheck - i` iterations to go. `DialTimeout i host port` is the
error of the dial made in iteration `i`; as in the Go library, the connection
returned next to a non-nil error is nil, and `conn.Close()` on a nil
connection is a nil dereference. -/
def CheckConnectivity.loop (DialTimeout : Nat → String → String → GoError) (host port : String) :
    Nat → Nat → ProbeLog → Exec GoError × ProbeLog
  | 0, _, log => (.ret (some "SSH Port is NOT not accessible (5 trials)"), log)
  | remaining + 1, i, log =>
    let err := DialTimeout i host port
    let connIsNil := err.isSome
    let log1 : ProbeLog := { log with dials := log.dials + 1 }
    if connIsNil then
      (.panic "invalid memory address or nil pointer dereference", log1)
    else if err != none then
      CheckConnectivity.loop DialTimeout host port remaining (i + 1)
        { log1 with sleeps := log1.sleeps ++ [5] }
    else
      (.ret none, log1)

/-- Go `CheckConnectivity`. -/
def CheckConnectivity (DialTimeout : Nat → String → String → GoError) (host port : String) :
    Exec GoError × ProbeLog :=
  let retrycheck := 5
  CheckConnectivity.loop DialTimeout host port retrycheck 0 ⟨0, []⟩

/-! ## Two-hop SSH transport -/

/-- The SSH library and the network behind it, as oracles. `NewSession t n` is
the error of the `n`-th session opened on the client of target `t` (session 0
is the one opened before the command loop, session `i + 1` the one of command
`i`); `Run t i cmd` is what running command `i` gives: the captured standard
output, the captured standard error, and the error of `session.Run`. -/
structure SshNet where
  ParsePrivateKey : String → GoError
  Dial : sshInfo → GoError
  DialThrough : sshInfo → sshInfo → GoError
  NewClientConn : sshInfo → GoError
  NewSession : sshInfo → Nat → GoError
  Run : sshInfo → Nat → String → String × String × GoError

/-- Go `fmt.Sprintf("(%s)\nStderr: %s", err, stderrBuf.String())`. -/
def annotateStderr (err stderrBuf : String) : String :=
  "(" ++ err ++ ")\nStderr: " ++ stderrBuf

/-- The `for i, cmd := range cmds` loop of `runSSH`, from index `i` on. -/
def runSSH.loop (net : SshNet) (targetInfo : sshInfo) :
    Nat → List String → IntMap → IntMap → IntMap × IntMap × GoError
  | _, [], stdoutMap, stderrMap => (stdoutMap, stderrMap, none)
  | i, cmd :: rest, stdoutMap, stderrMap =>
    match net.NewSession targetInfo (i + 1) with
    | some err => (stdoutMap, stderrMap, some err)
    | none =>
      match net.Run targetInfo i cmd with
      | (_, stderrBuf, some err) =>
        (stdoutMap, mapSet stderrMap i (annotateStderr err stderrBuf), none)
      | (stdoutBuf, stderrBuf, none) =>
        runSSH.loop net targetInfo (i + 1) rest (mapSet stdoutMap i stdoutBuf)
          (mapSet stderrMap i stderrBuf)

/-- Go `runSSH`. -/
def runSSH (net : SshNet) (bastionInfo targetInfo : sshInfo) (cmds : List String) :
    IntMap × IntMap × GoError :=
  let stdoutMap : IntMap := []
  let stderrMap : IntMap := []
  match net.ParsePrivateKey bastionInfo.PrivateKey with
  | some err => (stdoutMap, stderrMap, some err)
  | none =>
  match net.ParsePrivateKey targetInfo.PrivateKey with
  | some err => (stdoutMap, stderrMap, some err)
  | none =>
  match net.Dial bastionInfo with
  | some err => (stdoutMap, stderrMap, some err)
  | none =>
  match net.DialThrough bastionInfo targetInfo with
  | some err => (stdoutMap, stderrMap, some err)
  | none =>
  match net.NewClientConn targetInfo with
  | some err => (stdoutMap, stderrMap, some err)
  | none =>
  match net.NewSession targetInfo 0 with
  | some err => (stdoutMap, stderrMap, some err)
  | none => runSSH.loop net targetInfo 0 cmds stdoutMap stderrMap

/-! ## Per-VM unit -/

/-- Go `RunRemoteCommand`. Reading element 0 of an empty bastion list is an
index-out-of-range panic. -/
def RunRemoteCommand (net : SshNet) (s : Store) (nsId mcisId vmId givenUserName : String)
    (cmds : List String) : Exec (IntMap × IntMap × GoError) :=
  match GetVmIp s nsId mcisId vmId with
  | (_, targetVmIP, targetSshPort) =>
  match VerifySshUserName s nsId mcisId vmId targetVmIP targetSshPort givenUserName with
  | (targetUserName, targetPrivateKey, _) =>
  match GetBastionNodes s nsId mcisId vmId with
  | (_, some err) => .ret ([], [], some err)
  | (bastionNodes, none) =>
    match sliceElems bastionNodes.VmId with
    | [] => .panic "index out of range [0] with length 0"
    | bastionNode :: _ =>
      match GetVmIp s nsId mcisId bastionNode with
      | (bastionIp, _, bastionSshPort) =>
      match VerifySshUserName s nsId mcisId bastionNode bastionIp bastionSshPort givenUserName with
      | (bastionUserName, bastionSshKey, _) =>
        let bastionEndpoint := bastionIp ++ ":" ++ bastionSshPort
        let bastionSshInfo : sshInfo :=
          { EndPoint := bastionEndpoint, UserName := bastionUserName, PrivateKey := bastionSshKey }
        let targetEndpoint := targetVmIP ++ ":" ++ targetSshPort
        let targetSshInfo : sshInfo :=
          { EndPoint := targetEndpoint, UserName := targetUserName, PrivateKey := targetPrivateKey }
        match runSSH net bastionSshInfo targetSshInfo cmds with
        | (stdoutResults, stderrResults, some err) => .ret (stdoutResults, stderrResults, some err)
        | (stdoutResults, stderrResults, none) => .ret (stdoutResults, stderrResults, none)

/-- The `for i, c := range cmd` loop of `RunRemoteCommandAsync` that fills the
`Command` map. -/
def commandMap (cmd : List String) : IntMap :=
  cmd.enum.foldl (fun m p => mapSet m p.1 p.2) []

/-- Go `RunRemoteCommandAsync`, run to its end as one step: it takes the
shared result slice and returns it with this VM's result appended. -/
def RunRemoteCommandAsync (net : SshNet) (s : Store) (nsId mcisId vmId givenUserName : String)
    (cmd : List String) (returnResult : Slice SshCmdResult) : Exec (Slice SshCmdResult) :=
  match GetVmIp s nsId mcisId vmId with
  | (vmIP, _, _) =>
    (RunRemoteCommand net s nsId mcisId vmId givenUserName cmd).bind fun r =>
      match r with
      | (stdoutResults, stderrResults, err) =>
        let sshResultTmp : SshCmdResult :=
          { McisId := mcisId, VmId := vmId, VmIp := vmIP, Command := commandMap cmd,
            Stdout := [], Stderr := [], Err := none }
        if err != none then
          .ret (sliceAppend returnResult
            { sshResultTmp with Stdout := stdoutResults, Stderr := stderrResults, Err := err })
        else
          .ret (sliceAppend returnResult
            { sshResultTmp with Stdout := stdoutResults, Stderr := stderrResults, Err := none })

/-! ## Dispatcher -/

/-- Collaborators of `RemoteCommandToMcis` that lie outside the sources at
hand, taken as parameters: `common.CheckString`, `validate.Struct`,
`CheckMcis`, `ListVmId` and `ListVmBySubGroup`. -/
structure Env where
  CheckString : String → GoError
  validateStruct : McisCmdReq → GoError
  CheckMcis : String → String → Bool
  ListVmId : String → String → Slice String × GoError
  ListVmBySubGroup : String → String → String → Slice String × GoError

/-- The first part of `RemoteCommandToMcis`, up to the fan-out: request
validation and target resolution. It either leaves the function early with
the pair to return, or gives the `vmList` the fan-out ranges over. -/
def RemoteCommandToMcis.vmList (env : Env) (nsId mcisId subGroupId vmId : String)
    (req : McisCmdReq) : Except (Slice SshCmdResult × GoError) (Slice String) :=
  match env.CheckString nsId with
  | some err => .error (none, some err)
  | none =>
  match env.CheckString mcisId with
  | some err => .error (none, some err)
  | none =>
  match env.validateStruct req with
  | some err => .error (some [], some err)
  | none =>
  if !env.CheckMcis nsId mcisId then
    .error (some [], some ("The mcis " ++ mcisId ++ " does not exist."))
  else
    match env.ListVmId nsId mcisId with
    | (_, some err) => .error (none, some err)
    | (vmList, none) =>
      let afterGroup : Except (Slice SshCmdResult × GoError) (Slice String) :=
        if subGroupId != "" then
          match env.ListVmBySubGroup nsId mcisId subGroupId with
          | (_, some err) => .error (none, some err)
          | (vmListInGroup, none) =>
            if vmListInGroup == none then
              .error (none, some ("No VM in " ++ subGroupId))
            else .ok vmListInGroup
        else .ok vmList
      match afterGroup with
      | .error r => .error r
      | .ok vmList1 =>
        if vmId != "" then .ok (some [vmId]) else .ok vmList1

/-- The fan-out of `RemoteCommandToMcis` with its units run to completion one
after another, in list order: each unit appends to the shared `resultArray`;
a panic in a unit brings the whole process down. This is the one schedule in
which no two units overlap; `fanOutInterleaved` gives the appends under the
schedules in which they do. -/
def RemoteCommandToMcis.fanOut (net : SshNet) (s : Store) (nsId mcisId : String)
    (req : McisCmdReq) : List String → Slice SshCmdResult → Exec (Slice SshCmdResult)
  | [], resultArray => .ret resultArray
  | vmId :: rest, resultArray =>
    (RunRemoteCommandAsync net s nsId mcisId vmId req.UserName req.Command resultArray).bind
      fun resultArray1 => RemoteCommandToMcis.fanOut net s nsId mcisId req rest resultArray1

/-- Go `RemoteCommandToMcis`, with the per-VM units sequentialised. -/
def RemoteCommandToMcis (env : Env) (net : SshNet) (s : Store)
    (nsId mcisId subGroupId vmId : String) (req : McisCmdReq) :
    Exec (Slice SshCmdResult × GoError) :=
  match RemoteCommandToMcis.vmList env nsId mcisId subGroupId vmId req with
  | .error r => .ret r
  | .ok vmList =>
    (RemoteCommandToMcis.fanOut net s nsId mcisId req (sliceElems vmList) none).bind
      fun resultArray => .ret (resultArray, none)

/-! ## A concrete fleet -/

/-- VM record of the example fleet. -/
def exVm (id pub priv vnet subnet key : String) : String × String × TbVmInfo :=
  ("ns1", "mcis1",
    { Id := id, PublicIP := pub, PrivateIP := priv, SSHPort := "22", VNetId := vnet,
      SubnetId := subnet, SshKeyId := key })

/-- Subnet record of the example VNet. -/
def exSubnet (id : String) (bastions : Slice String) : TbSubnetInfo :=
  { Id := id, Name := id, IPv4_CIDR := "10.0.0.0/24", KeyValueList := [], Description := "",
    BastionNodeIds := bastions }

/-- VNet aggregate of the example fleet, with the given subnets. -/
def exVNet (subnets : List TbSubnetInfo) : TbVNetInfo :=
  { Id := "vnet1", Name := "vnet1", ConnectionName := "conn1", CidrBlock := "10.0.0.0/16",
    SubnetInfoList := subnets, Description := "", CspVNetId := "csp-vnet1",
    CspVNetName := "csp-vnet1", Status := "", KeyValueList := [], AssociatedObjectList := [],
    IsAutoGenerated := false, SystemLabel := "" }

/-- Example store: `vm1` sits in subnet `sn1`, which has `bastion1` registered;
`vm2` sits in `sn2`, which has no bastion list; `vm3` sits in `sn3`, whose
bastion list is allocated and has no entry. The SSH key `key1` has no plain
username and the verified username `ubuntu`; `key2` has the plain username
`admin`. -/
def exStore : Store :=
  { vms := [exVm "vm1" "1.1.1.1" "10.0.0.1" "vnet1" "sn1" "key1",
            exVm "vm2" "1.1.1.2" "10.0.0.2" "vnet1" "sn2" "key1",
            exVm "vm3" "1.1.1.3" "10.0.0.3" "vnet1" "sn3" "key2",
            exVm "bastion1" "2.2.2.2" "10.0.0.9" "vnet1" "sn1" "key1"],
    vnets := [("ns1", exVNet [exSubnet "sn1" (some ["bastion1"]), exSubnet "sn2" none,
                exSubnet "sn3" (some [])])],
    sshKeys := [("ns1", ⟨"key1", "", "ubuntu", "KEY1"⟩), ("ns1", ⟨"key2", "admin", "ubuntu", "KEY2"⟩)] }

/-- Example network: every connection step succeeds; the command `false`
fails with exit status 1 and writes `oops` to standard error, every other
command succeeds and echoes its own text. -/
def exNet : SshNet :=
  { ParsePrivateKey := fun _ => none,
    Dial := fun _ => none,
    DialThrough := fun _ _ => none,
    NewClientConn := fun _ => none,
    NewSession := fun _ _ => none,
    Run := fun _ _ cmd =>
      if cmd == "false" then ("", "oops", some "Process exited with status 1")
      else (cmd, "", none) }

/-- Example request environment: every string and request is valid, the fleet
`mcis1` of `ns1` exists with the VMs `vm1` and `vm2`, both in subgroup `g1`;
the fleet `empty` of `ns1` exists and has no VM. -/
def exEnv : Env :=
  { CheckString := fun _ => none,
    validateStruct := fun _ => none,
    CheckMcis := fun nsId mcisId => nsId == "ns1" && (mcisId == "mcis1" || mcisId == "empty"),
    ListVmId := fun _ mcisId => if mcisId == "mcis1" then (some ["vm1", "vm2"], none) else (none, none),
    ListVmBySubGroup := fun _ mcisId g =>
      if mcisId == "mcis1" && g == "g1" then (some ["vm1", "vm2"], none) else (none, none) }

/-! ## Vocabulary of the statements -/

/-- Both hops are up for a call of `runSSH`: the two keys parse, the bastion is
dialled, the proxied stream to the target opens, the second handshake
succeeds and the first session opens. -/
def Connected (net : SshNet) (bastionInfo targetInfo : sshInfo) : Prop :=
  net.ParsePrivateKey bastionInfo.PrivateKey = none ∧
  net.ParsePrivateKey targetInfo.PrivateKey = none ∧
  net.Dial bastionInfo = none ∧
  net.DialThrough bastionInfo targetInfo = none ∧
  net.NewClientConn targetInfo = none ∧
  net.NewSession targetInfo 0 = none

/-- Command `k` of the batch is the first to fail on the target: the sessions
of the commands `0..k` open, the commands before `k` run without error, and
the run of command `k` returns an error. -/
def FirstFailureAt (net : SshNet) (targetInfo : sshInfo) (cmds : List String) (k : Nat) : Prop :=
  k < cmds.length ∧
  (∀ j, j ≤ k → net.NewSession targetInfo (j + 1) = none) ∧
  (∀ j, j < k → (net.Run targetInfo j (cmds.getD j "")).2.2 = none) ∧
  (net.Run targetInfo k (cmds.getD k "")).2.2 ≠ none

/-- Standard output captured for the commands `0..k-1`, by index. -/
def stdoutUpTo (net : SshNet) (targetInfo : sshInfo) (cmds : List String) (k : Nat) : IntMap :=
  (List.range k).map (fun j => (j, (net.Run targetInfo j (cmds.getD j "")).1))

/-- Standard error captured for the commands `0..k-1`, by index. -/
def stderrUpTo (net : SshNet) (targetInfo : sshInfo) (cmds : List String) (k : Nat) : IntMap :=
  (List.range k).map (fun j => (j, (net.Run targetInfo j (cmds.getD j "")).2.1))

/-- The entry that `runSSH` records in the standard-error map for a command
whose run failed: the error text followed by the captured standard error. -/
def failureNote (net : SshNet) (targetInfo : sshInfo) (cmds : List String) (k : Nat) : String :=
  annotateStderr ((net.Run targetInfo k (cmds.getD k "")).2.2.getD "")
    (net.Run targetInfo k (cmds.getD k "")).2.1

/-- The `sshInfo` that `RunRemoteCommand` builds for the target VM. -/
def targetSshInfoOf (s : Store) (nsId mcisId vmId givenUserName : String) : sshInfo :=
  let ip := GetVmIp s nsId mcisId vmId
  let cred := VerifySshUserName s nsId mcisId vmId ip.2.1 ip.2.2 givenUserName
  { EndPoint := ip.2.1 ++ ":" ++ ip.2.2, UserName := cred.1, PrivateKey := cred.2.1 }

/-- The `sshInfo` that `RunRemoteCommand` builds for the bastion VM. -/
def bastionSshInfoOf (s : Store) (nsId mcisId bastionNode givenUserName : String) : sshInfo :=
  let ip := GetVmIp s nsId mcisId bastionNode
  let cred := VerifySshUserName s nsId mcisId bastionNode ip.1 ip.2.2 givenUserName
  { EndPoint := ip.1 ++ ":" ++ ip.2.2, UserName := cred.1, PrivateKey := cred.2.1 }

/-- The VM's subnet as `SetBastionNodes` and `GetBastionNodes` find it: the
VM and its VNet are read, and `sub` is the first subnet of the VNet whose id
is the VM's subnet id. -/
structure SubnetFound (s : Store) (nsId mcisId targetVmId : String) (vmObj : TbVmInfo)
    (V : TbVNetInfo) (pre : List TbSubnetInfo) (sub : TbSubnetInfo)
    (post : List TbSubnetInfo) : Prop where
  hvm : GetVmObject s nsId mcisId targetVmId = (vmObj, none)
  hvnet : GetResource s nsId vmObj.VNetId = (some V, none)
  hsplit : V.SubnetInfoList = pre ++ sub :: post
  hpre : ∀ x ∈ pre, (x.Id == vmObj.SubnetId) = false
  hsub : (sub.Id == vmObj.SubnetId) = true

/-! ## The command loop with a log -/

/-- What the command loop of `runSSH` does on the target, in order of
occurrence: a session is opened for command `i`, the run of command `i` has
returned, the maps have been written for index `i`. -/
inductive SshEvent where
  | sessionOpened (i : Nat)
  | commandRun (i : Nat) (cmd : String)
  | outputRecorded (i : Nat)
deriving DecidableEq, Repr

/-- The `for i, cmd := range cmds` loop of `runSSH`, as `runSSH.loop`, with a
log of the sessions opened, the commands run and the map writes, in the order
the loop body makes them. -/
def runSSH.loopLogged (net : SshNet) (targetInfo : sshInfo) :
    Nat → List String → IntMap → IntMap → List SshEvent →
      (IntMap × IntMap × GoError) × List SshEvent
  | _, [], stdoutMap, stderrMap, log => ((stdoutMap, stderrMap, none), log)
  | i, cmd :: rest, stdoutMap, stderrMap, log =>
    match net.NewSession targetInfo (i + 1) with
    | some err => ((stdoutMap, stderrMap, some err), log)
    | none =>
      match net.Run targetInfo i cmd with
      | (_, stderrBuf, some err) =>
        ((stdoutMap, mapSet stderrMap i (annotateStderr err stderrBuf), none),
          log ++ [.sessionOpened i, .commandRun i cmd, .outputRecorded i])
      | (stdoutBuf, stderrBuf, none) =>
        runSSH.loopLogged net targetInfo (i + 1) rest (mapSet stdoutMap i stdoutBuf)
          (mapSet stderrMap i stderrBuf)
          (log ++ [.sessionOpened i, .commandRun i cmd, .outputRecorded i])

/-- Go `runSSH`, as `runSSH`, with the log of its command loop. -/
def runSSHLogged (net : SshNet) (bastionInfo targetInfo : sshInfo) (cmds : List String) :
    (IntMap × IntMap × GoError) × List SshEvent :=
  let stdoutMap : IntMap := []
  let stderrMap : IntMap := []
  match net.ParsePrivateKey bastionInfo.PrivateKey with
  | some err => ((stdoutMap, stderrMap, some err), [])
  | none =>
  match net.ParsePrivateKey targetInfo.PrivateKey with
  | some err => ((stdoutMap, stderrMap, some err), [])
  | none =>
  match net.Dial bastionInfo with
  | some err => ((stdoutMap, stderrMap, some err), [])
  | none =>
  match net.DialThrough bastionInfo targetInfo with
  | some err => ((stdoutMap, stderrMap, some err), [])
  | none =>
  match net.NewClientConn targetInfo with
  | some err => ((stdoutMap, stderrMap, some err), [])
  | none =>
  match net.NewSession targetInfo 0 with
  | some err => ((stdoutMap, stderrMap, some err), [])
  | none => runSSH.loopLogged net targetInfo 0 cmds stdoutMap stderrMap []

/-- The commands of a log, in the order they were run. -/
def commandsRun : List SshEvent → List String
  | [] => []
  | .commandRun _ cmd :: rest => cmd :: commandsRun rest
  | _ :: rest => commandsRun rest

/-- The log of the first `m` iterations of the command loop over `cmds`: for
each index in turn, its session is opened, its command is run, its output is
recorded, and only then comes the next index. -/
def iterationEvents (cmds : List String) : Nat → List SshEvent
  | 0 => []
  | m + 1 => iterationEvents cmds m ++
      [.sessionOpened m, .commandRun m (cmds.getD m ""), .outputRecorded m]

/-- Every command of the batch succeeds on the target: each session opens and
each run returns without error. -/
def AllSucceed (net : SshNet) (targetInfo : sshInfo) (cmds : List String) : Prop :=
  ∀ j, j < cmds.length →
    net.NewSession targetInfo (j + 1) = none ∧
    (net.Run targetInfo j (cmds.getD j "")).2.2 = none

/-! ## The shared result slice under interleaving -/

/-- Where a unit stands in its statement
`*returnResult = append(*returnResult, sshResultTmp)`: it has not yet read the
shared slice, or it has read the slice `seen` and not yet written, or it has
written. No lock is held between the read and the write. -/
inductive AppendPc where
  | ready
  | loaded (seen : Slice SshCmdResult)
  | done
deriving DecidableEq, Repr

/-- The shared `resultArray` and the position of every unit. -/
structure FanState where
  resultArray : Slice SshCmdResult
  pcs : List AppendPc
deriving DecidableEq, Repr

/-- One step of unit `i`, whose result is `tmp[i]`: a ready unit reads the
shared slice; a unit that has read writes back the slice it read with its
result appended; a unit that is done does nothing. -/
def stepUnit (tmp : List SshCmdResult) (st : FanState) (i : Nat) : FanState :=
  match st.pcs.get? i, tmp.get? i with
  | some .ready, some _ => { st with pcs := st.pcs.set i (.loaded st.resultArray) }
  | some (.loaded seen), some r =>
    { resultArray := sliceAppend seen r, pcs := st.pcs.set i .done }
  | _, _ => st

/-- The fan-out of `RemoteCommandToMcis` with the units' appends interleaved
as the schedule says (a list of unit indices, one entry per step).
`wg.Wait()` returns once every unit is done, and the call then returns the
shared slice as it is; a schedule that leaves a unit unfinished gives no
return. -/
def fanOutInterleaved (tmp : List SshCmdResult) (sched : List Nat) :
    Option (Slice SshCmdResult) :=
  let st := sched.foldl (stepUnit tmp) ⟨none, tmp.map (fun _ => AppendPc.ready)⟩
  if st.pcs.all (fun pc => pc == AppendPc.done) then some st.resultArray else none

/-! ## Duplicate-free bastion lists -/

/-- Every subnet of every stored VNet has a bastion list without duplicates. -/
def BastionListsNodup (s : Store) : Prop :=
  ∀ e ∈ s.vnets, ∀ sub ∈ e.2.SubnetInfoList, (sliceElems sub.BastionNodeIds).Nodup

/-- The result the unit of `vm1` produces on the example fleet for the batch
`echo hi`. -/
def exResultVm1 : SshCmdResult :=
  ⟨"mcis1", "vm1", "1.1.1.1", [(0, "echo hi")], [(0, "echo hi")], [(0, "")], none⟩

/-- The result the unit of `vm2` produces on the example fleet for the batch
`echo hi`. -/
def exResultVm2 : SshCmdResult :=
  ⟨"mcis1", "vm2", "1.1.1.2", [(0, "echo hi")], [], [],
    some (errNoBastion "sn2" "vnet1" "vm2")⟩

/-! ## Lemmas on maps and slices -/

theorem mapSet_range (f : Nat → String) (i : Nat) (v : String) :
    mapSet ((List.range i).map (fun j => (j, f j))) i v =
      (List.range i).map (fun j => (j, f j)) ++ [(i, v)] := by
  unfold mapSet
  congr 1
  rw [List.filter_eq_self]
  intro p hp
  rcases List.mem_map.1 hp with ⟨j, hj, rfl⟩
  have : j < i := List.mem_range.1 hj
  simp
  omega

theorem map_range_succ (f : Nat → String) (i : Nat) :
    (List.range (i + 1)).map (fun j => (j, f j)) =
      (List.range i).map (fun j => (j, f j)) ++ [(i, f i)] := by
  rw [List.range_succ, List.map_append]
  rfl

theorem drop_eq_cons {cmds : List String} {i : Nat} {c : String} {rest : List String}
    (h : cmds.drop i = c :: rest) :
    i < cmds.length ∧ cmds.getD i "" = c ∧ cmds.drop (i + 1) = rest := by
  induction cmds generalizing i with
  | nil => simp at h
  | cons a l ih =>
    cases i with
    | zero =>
      simp only [List.drop_zero, List.cons.injEq] at h
      obtain ⟨rfl, rfl⟩ := h
      simp
    | succ n =>
      simp only [List.drop_succ_cons] at h
      obtain ⟨h1, h2, h3⟩ := ih h
      refine ⟨by simp; omega, ?_, ?_⟩
      · simpa using h2
      · simpa using h3

/-- The command loop of `runSSH` up to the first failing command: entered at
index `i` with the maps of the commands before `i`, it leaves with the maps
of the commands before `k`, the note on command `k`, and a nil error. -/
theorem runSSH_loop_first_failure (net : SshNet) (t : sshInfo) (cmds : List String) (k : Nat)
    (hfail : FirstFailureAt net t cmds k) :
    ∀ (rest : List String) (i : Nat), cmds.drop i = rest → i ≤ k →
      runSSH.loop net t i rest (stdoutUpTo net t cmds i) (stderrUpTo net t cmds i) =
        (stdoutUpTo net t cmds k, stderrUpTo net t cmds k ++ [(k, failureNote net t cmds k)],
          none) := by
  obtain ⟨hk, hsess, hok, hbad⟩ := hfail
  intro rest
  induction rest with
  | nil =>
    intro i hdrop hik
    have : cmds.length ≤ i := List.drop_eq_nil_iff.1 hdrop
    omega
  | cons c rest ih =>
    intro i hdrop hik
    obtain ⟨_, hc, hrest⟩ := drop_eq_cons hdrop
    have hs : net.NewSession t (i + 1) = none := hsess i hik
    rcases Nat.lt_or_eq_of_le hik with hlt | heq
    · have hrun := hok i hlt
      rw [hc] at hrun
      rcases hr : net.Run t i c with ⟨o, b, e⟩
      rw [hr] at hrun
      simp only at hrun
      subst hrun
      have h1 : mapSet (stdoutUpTo net t cmds i) i o = stdoutUpTo net t cmds (i + 1) := by
        unfold stdoutUpTo
        rw [mapSet_range, map_range_succ, hc, hr]
      have h2 : mapSet (stderrUpTo net t cmds i) i b = stderrUpTo net t cmds (i + 1) := by
        unfold stderrUpTo
        rw [mapSet_range, map_range_succ, hc, hr]
      simp only [runSSH.loop, hs, hr, h1, h2]
      exact ih (i + 1) hrest hlt
    · subst heq
      rw [hc] at hbad
      rcases hr : net.Run t i c with ⟨o, b, e⟩
      rw [hr] at hbad
      simp only at hbad
      obtain ⟨e, rfl⟩ := Option.ne_none_iff_exists'.1 hbad
      have h2 : mapSet (stderrUpTo net t cmds i) i (annotateStderr e b) =
          stderrUpTo net t cmds i ++ [(i, failureNote net t cmds i)] := by
        unfold stderrUpTo failureNote
        rw [mapSet_range, hc, hr]
        rfl
      simp only [runSSH.loop, hs, hr, h2]

/-- The result of `runSSH` when both hops are up and command `k` is the first
to fail. -/
theorem runSSH_first_failure (net : SshNet) (b t : sshInfo) (cmds : List String) (k : Nat)
    (hconn : Connected net b t) (hfail : FirstFailureAt net t cmds k) :
    runSSH net b t cmds =
      (stdoutUpTo net t cmds k, stderrUpTo net t cmds k ++ [(k, failureNote net t cmds k)],
        none) := by
  obtain ⟨h1, h2, h3, h4, h5, h6⟩ := hconn
  have := runSSH_loop_first_failure net t cmds k hfail cmds 0 rfl (Nat.zero_le k)
  simp only [runSSH, h1, h2, h3, h4, h5, h6]
  simpa [stdoutUpTo, stderrUpTo] using this

/-! ## Lemmas on the per-VM unit -/

theorem commandMap_fold (cmds : List String) :
    ∀ (rest : List String) (i : Nat), cmds.drop i = rest → i ≤ cmds.length →
      (rest.enumFrom i).foldl (fun m p => mapSet m p.1 p.2)
          ((List.range i).map (fun j => (j, cmds.getD j ""))) =
        (List.range cmds.length).map (fun j => (j, cmds.getD j "")) := by
  intro rest
  induction rest with
  | nil =>
    intro i hdrop hle
    have h1 : cmds.length ≤ i := List.drop_eq_nil_iff.1 hdrop
    have h2 : i = cmds.length := Nat.le_antisymm hle h1
    subst h2
    rfl
  | cons c rest ih =>
    intro i hdrop _
    obtain ⟨hlt, hc, hrest⟩ := drop_eq_cons hdrop
    simp only [List.enumFrom_cons, List.foldl_cons]
    rw [mapSet_range, ← hc, ← map_range_succ (fun j => cmds.getD j "")]
    exact ih (i + 1) hrest hlt

/-- The `Command` map lists every command of the batch under its index. -/
theorem commandMap_eq (cmds : List String) :
    commandMap cmds = (List.range cmds.length).map (fun j => (j, cmds.getD j "")) := by
  have := commandMap_fold cmds cmds 0 rfl (Nat.zero_le _)
  simpa [commandMap, List.enum] using this

theorem mapGet_map_range (f : Nat → String) (n i : Nat) (h : i < n) :
    mapGet ((List.range n).map (fun j => (j, f j))) i = some (f i) := by
  induction n with
  | zero => omega
  | succ n ih =>
    rw [map_range_succ]
    unfold mapGet at *
    rw [List.find?_append]
    rcases Nat.lt_or_eq_of_le (Nat.le_of_lt_succ h) with hlt | heq
    · rw [Option.map_eq_some'] at ih
      obtain ⟨a, ha, ha2⟩ := ih hlt
      rw [ha]
      simp [ha2]
    · subst heq
      have hnone : List.find? (fun p => p.1 == i) ((List.range i).map (fun j => (j, f j))) = none := by
        rw [List.find?_eq_none]
        intro p hp
        rcases List.mem_map.1 hp with ⟨j, hj, rfl⟩
        have : j < i := List.mem_range.1 hj
        simp
        omega
      rw [hnone]
      simp

theorem mapKeys_map_range (f : Nat → String) (n : Nat) :
    mapKeys ((List.range n).map (fun j => (j, f j))) = List.range n := by
  unfold mapKeys
  rw [List.map_map]
  exact List.map_id _

/-- With a bastion resolved, `RunRemoteCommand` returns what `runSSH` returns
on the bastion's and the target's connection data. -/
theorem RunRemoteCommand_eq_runSSH (net : SshNet) (s : Store)
    (nsId mcisId vmId givenUserName : String) (cmds : List String) (bn : String)
    (more : List String) (herr : (GetBastionNodes s nsId mcisId vmId).2 = none)
    (hlist : sliceElems (GetBastionNodes s nsId mcisId vmId).1.VmId = bn :: more) :
    RunRemoteCommand net s nsId mcisId vmId givenUserName cmds =
      .ret (runSSH net (bastionSshInfoOf s nsId mcisId bn givenUserName)
        (targetSshInfoOf s nsId mcisId vmId givenUserName) cmds) := by
  unfold RunRemoteCommand bastionSshInfoOf targetSshInfoOf
  rcases hg : GetBastionNodes s nsId mcisId vmId with ⟨bi, e⟩
  rw [hg] at herr hlist
  simp only at herr hlist
  subst herr
  simp only [hlist]
  rcases hr : runSSH net _ _ cmds with ⟨so, se, e⟩
  cases e <;> simp_all

/-- When bastion resolution fails, `RunRemoteCommand` returns that error with
two empty maps. -/
theorem RunRemoteCommand_bastion_error (net : SshNet) (s : Store)
    (nsId mcisId vmId givenUserName : String) (cmds : List String) (e : String)
    (herr : (GetBastionNodes s nsId mcisId vmId).2 = some e) :
    RunRemoteCommand net s nsId mcisId vmId givenUserName cmds = .ret ([], [], some e) := by
  unfold RunRemoteCommand
  rcases hg : GetBastionNodes s nsId mcisId vmId with ⟨bi, e1⟩
  rw [hg] at herr
  simp only at herr
  subst herr
  rfl

/-- A unit whose `RunRemoteCommand` returns appends exactly one result, which
carries the VM's id, the whole batch, and what `RunRemoteCommand` returned. -/
theorem RunRemoteCommandAsync_of_ret (net : SshNet) (s : Store)
    (nsId mcisId vmId givenUserName : String) (cmd : List String) (acc : Slice SshCmdResult)
    (so se : IntMap) (e : GoError)
    (h : RunRemoteCommand net s nsId mcisId vmId givenUserName cmd = .ret (so, se, e)) :
    RunRemoteCommandAsync net s nsId mcisId vmId givenUserName cmd acc =
      .ret (sliceAppend acc
        { McisId := mcisId, VmId := vmId, VmIp := (GetVmIp s nsId mcisId vmId).1,
          Command := commandMap cmd, Stdout := so, Stderr := se, Err := e }) := by
  unfold RunRemoteCommandAsync
  rw [h]
  cases e <;> simp [Exec.bind]

/-- The fan-out over targets whose units all run to completion: the shared
slice grows by one result per target, in list order, and each of these is
the result its unit produces on its own. -/
theorem fanOut_complete (net : SshNet) (s : Store) (nsId mcisId : String) (req : McisCmdReq) :
    ∀ (L : List String) (acc : Slice SshCmdResult),
      (∀ v ∈ L, ∃ r, RunRemoteCommand net s nsId mcisId v req.UserName req.Command = .ret r) →
      ∃ rs : List SshCmdResult,
        rs.map (fun r => r.VmId) = L ∧
        (∀ res ∈ rs, RunRemoteCommandAsync net s nsId mcisId res.VmId req.UserName req.Command
            none = .ret (some [res])) ∧
        RemoteCommandToMcis.fanOut net s nsId mcisId req L acc =
          .ret (if L = [] then acc else some (sliceElems acc ++ rs)) := by
  intro L
  induction L with
  | nil =>
    intro acc _
    exact ⟨[], rfl, by simp, by simp [RemoteCommandToMcis.fanOut]⟩
  | cons v rest ih =>
    intro acc hrun
    obtain ⟨⟨so, se, e⟩, hr⟩ := hrun v (List.mem_cons_self _ _)
    have hunit := RunRemoteCommandAsync_of_ret net s nsId mcisId v req.UserName req.Command
    obtain ⟨rs, hmap, hres, hfan⟩ := ih
      (sliceAppend acc
        { McisId := mcisId, VmId := v, VmIp := (GetVmIp s nsId mcisId v).1,
          Command := commandMap req.Command, Stdout := so, Stderr := se, Err := e })
      (fun w hw => hrun w (List.mem_cons_of_mem _ hw))
    refine ⟨(⟨mcisId, v, (GetVmIp s nsId mcisId v).1, commandMap req.Command, so, se, e⟩ :
      SshCmdResult) :: rs, ?_, ?_, ?_⟩
    · simp only [List.map_cons, hmap]
    · intro res hmem
      rcases List.mem_cons.1 hmem with rfl | hmem
      · rw [hunit none so se e hr]
        rfl
      · exact hres res hmem
    · simp only [RemoteCommandToMcis.fanOut, hunit acc so se e hr, Exec.bind, hfan]
      by_cases hrest : rest = []
      · subst hrest
        have : rs = [] := by simpa using hmap
        subst this
        simp [sliceAppend]
      · simp [hrest, sliceAppend, sliceElems]

/-! ## Dispatch returns one result per target -/

/-- C1: when target resolution succeeds with a non-empty, duplicate-free id
list and the per-VM units are run to completion one after another,
`RemoteCommandToMcis` returns a nil call-level error and a result list as
long as the target list whose `VmId` fields are the target ids, each exactly
once. -/
theorem RemoteCommandToMcis_one_result_per_target (env : Env) (net : SshNet) (s : Store)
    (nsId mcisId subGroupId vmId : String) (req : McisCmdReq) (vmList : Slice String)
    (hres : RemoteCommandToMcis.vmList env nsId mcisId subGroupId vmId req = .ok vmList)
    (hne : sliceElems vmList ≠ [])
    (hnd : (sliceElems vmList).Nodup)
    (hrun : ∀ v ∈ sliceElems vmList,
      ∃ r, RunRemoteCommand net s nsId mcisId v req.UserName req.Command = .ret r) :
    ∃ rs : List SshCmdResult,
      RemoteCommandToMcis env net s nsId mcisId subGroupId vmId req = .ret (some rs, none) ∧
      rs.length = (sliceElems vmList).length ∧
      (rs.map (fun r => r.VmId)).Perm (sliceElems vmList) ∧
      (rs.map (fun r => r.VmId)).Nodup := by
  obtain ⟨rs, hmap, _, hfan⟩ := fanOut_complete net s nsId mcisId req (sliceElems vmList) none hrun
  refine ⟨rs, ?_, ?_, ?_, ?_⟩
  · simp only [RemoteCommandToMcis, hres, hfan, Exec.bind, if_neg hne]
    rfl
  · rw [← hmap, List.length_map]
  · rw [hmap]
  · rw [hmap]
    exact hnd

/-- C1 at the example fleet: subgroup `g1` resolves to `vm1` and `vm2`, both
units return, and the call returns two results, one per VM. -/
theorem RemoteCommandToMcis_one_result_per_target_witness :
    ∃ rs : List SshCmdResult,
      RemoteCommandToMcis exEnv exNet exStore "ns1" "mcis1" "g1" "" ⟨"", ["echo hi"]⟩ =
        .ret (some rs, none) ∧
      rs.length = (sliceElems (some ["vm1", "vm2"])).length ∧
      (rs.map (fun r => r.VmId)).Perm (sliceElems (some ["vm1", "vm2"])) ∧
      (rs.map (fun r => r.VmId)).Nodup :=
  RemoteCommandToMcis_one_result_per_target exEnv exNet exStore "ns1" "mcis1" "g1" ""
    ⟨"", ["echo hi"]⟩ (some ["vm1", "vm2"]) rfl (by simp [sliceElems]) (by simp [sliceElems])
    (by
      intro v hv
      simp only [sliceElems, List.mem_cons, List.mem_singleton, List.not_mem_nil, or_false] at hv
      rcases hv with rfl | rfl
      · exact ⟨_, rfl⟩
      · exact ⟨_, rfl⟩)

/-! ## A failing command and the call-level error -/

/-- C2, as stated, fails: on the example fleet the batch `echo hi`, `false`
reaches `vm1` over both hops, command 1 is the first to fail, and yet
`runSSH` returns a nil error and the result built for `vm1` has a nil `Err`. -/
theorem runSSH_command_failure_counterexample :
    Connected exNet (bastionSshInfoOf exStore "ns1" "mcis1" "bastion1" "")
      (targetSshInfoOf exStore "ns1" "mcis1" "vm1" "") ∧
    FirstFailureAt exNet (targetSshInfoOf exStore "ns1" "mcis1" "vm1" "") ["echo hi", "false"] 1 ∧
    (runSSH exNet (bastionSshInfoOf exStore "ns1" "mcis1" "bastion1" "")
      (targetSshInfoOf exStore "ns1" "mcis1" "vm1" "") ["echo hi", "false"]).2.2 = none ∧
    RunRemoteCommandAsync exNet exStore "ns1" "mcis1" "vm1" "" ["echo hi", "false"] none =
      .ret (some [⟨"mcis1", "vm1", "1.1.1.1", [(0, "echo hi"), (1, "false")], [(0, "echo hi")],
        [(0, ""), (1, "(Process exited with status 1)\nStderr: oops")], none⟩]) := by
  refine ⟨⟨rfl, rfl, rfl, rfl, rfl, rfl⟩, ⟨by decide, fun _ _ => rfl, ?_, ?_⟩, rfl, rfl⟩
  · intro j hj
    interval_cases j
    rfl
  · intro h
    have h2 : (exNet.Run (targetSshInfoOf exStore "ns1" "mcis1" "vm1" "") 1
        (["echo hi", "false"].getD 1 "")).2.2 = some "Process exited with status 1" := rfl
    rw [h2] at h
    cases h

/-- C2, amended: when both hops are up and command `k` is the first to fail,
`runSSH` returns a nil error together with the maps accumulated up to and
including index `k` (standard output of the commands before `k`, standard
error of these and, under `k`, the error text followed by the captured
standard error); the result that `RunRemoteCommandAsync` builds from it has
these maps and a nil `Err`. -/
theorem runSSH_command_failure_nil_error (net : SshNet) (b t : sshInfo) (cmds : List String)
    (k : Nat) (hconn : Connected net b t) (hfail : FirstFailureAt net t cmds k) :
    runSSH net b t cmds =
      (stdoutUpTo net t cmds k, stderrUpTo net t cmds k ++ [(k, failureNote net t cmds k)],
        none) ∧
    ∀ (s : Store) (nsId mcisId vmId givenUserName bn : String) (more : List String)
      (acc : Slice SshCmdResult),
      (GetBastionNodes s nsId mcisId vmId).2 = none →
      sliceElems (GetBastionNodes s nsId mcisId vmId).1.VmId = bn :: more →
      b = bastionSshInfoOf s nsId mcisId bn givenUserName →
      t = targetSshInfoOf s nsId mcisId vmId givenUserName →
      RunRemoteCommandAsync net s nsId mcisId vmId givenUserName cmds acc =
        .ret (sliceAppend acc
          ⟨mcisId, vmId, (GetVmIp s nsId mcisId vmId).1, commandMap cmds,
            stdoutUpTo net t cmds k,
            stderrUpTo net t cmds k ++ [(k, failureNote net t cmds k)], none⟩) := by
  have hrun := runSSH_first_failure net b t cmds k hconn hfail
  refine ⟨hrun, ?_⟩
  intro s nsId mcisId vmId givenUserName bn more acc herr hlist hb ht
  apply RunRemoteCommandAsync_of_ret
  rw [RunRemoteCommand_eq_runSSH net s nsId mcisId vmId givenUserName cmds bn more herr hlist,
    ← hb, ← ht, hrun]

/-- C2 amended, at the example fleet: the batch `echo hi`, `false` on `vm1`
gives a nil error, the output of command 0, and the failure note under
index 1. -/
theorem runSSH_command_failure_nil_error_witness :
    runSSH exNet (bastionSshInfoOf exStore "ns1" "mcis1" "bastion1" "")
        (targetSshInfoOf exStore "ns1" "mcis1" "vm1" "") ["echo hi", "false"] =
      ([(0, "echo hi")], [(0, ""), (1, "(Process exited with status 1)\nStderr: oops")], none) :=
  (runSSH_command_failure_nil_error exNet (bastionSshInfoOf exStore "ns1" "mcis1" "bastion1" "")
    (targetSshInfoOf exStore "ns1" "mcis1" "vm1" "") ["echo hi", "false"] 1
    ⟨rfl, rfl, rfl, rfl, rfl, rfl⟩
    ⟨by decide, fun _ _ => rfl, fun j hj => by interval_cases j; rfl,
      fun h => by
        have h2 : (exNet.Run (targetSshInfoOf exStore "ns1" "mcis1" "vm1" "") 1
            (["echo hi", "false"].getD 1 "")).2.2 = some "Process exited with status 1" := rfl
        rw [h2] at h
        cases h⟩).1

/-! ## Username precedence -/

/-- C3, as stated, fails: the SSH key of `vm1` has the verified username
`ubuntu` and no plain username; with no requested username
`VerifySshUserName` returns the default `cb-user`, not `ubuntu`. -/
theorem VerifySshUserName_counterexample :
    (GetVmSshKey exStore "ns1" "mcis1" "vm1").2.1 = "ubuntu" ∧
    VerifySshUserName exStore "ns1" "mcis1" "vm1" "10.0.0.1" "22" "" = ("cb-user", "KEY1", none) ∧
    VerifySshUserName exStore "ns1" "mcis1" "vm1" "10.0.0.1" "22" "" ≠ ("ubuntu", "KEY1", none) := by
  refine ⟨rfl, rfl, ?_⟩
  rw [show VerifySshUserName exStore "ns1" "mcis1" "vm1" "10.0.0.1" "22" "" =
    ("cb-user", "KEY1", none) from rfl]
  simp

/-- C3, amended: `VerifySshUserName` returns the requested username if it is
non-empty; otherwise the plain username field of the VM's SSH-key resource if
that is non-empty; otherwise the fixed default `cb-user`; always together with
the resource's private key and no error. The verified username of the
resource is not consulted. -/
theorem VerifySshUserName_precedence (s : Store)
    (nsId mcisId vmId vmIp sshPort givenUserName : String) :
    VerifySshUserName s nsId mcisId vmId vmIp sshPort givenUserName =
      (if givenUserName ≠ "" then givenUserName
        else if (GetVmSshKey s nsId mcisId vmId).1 ≠ "" then (GetVmSshKey s nsId mcisId vmId).1
        else "cb-user",
       (GetVmSshKey s nsId mcisId vmId).2.2, none) := by
  unfold VerifySshUserName
  rcases GetVmSshKey s nsId mcisId vmId with ⟨u, v, key⟩
  by_cases hg : givenUserName = ""
  · by_cases hu : u = ""
    · subst hg hu
      rfl
    · subst hg
      simp [hu]
  · simp [hg]

/-! ## Lemmas on the bastion registry -/

theorem subnets_split (sid : String) (l : List TbSubnetInfo) :
    (∀ x ∈ l, (x.Id == sid) = false) ∨
    ∃ pre sub post, l = pre ++ sub :: post ∧ (∀ x ∈ pre, (x.Id == sid) = false) ∧
      (sub.Id == sid) = true := by
  induction l with
  | nil =>
    left
    simp
  | cons a l ih =>
    cases ha : (a.Id == sid) with
    | true => exact Or.inr ⟨[], a, l, rfl, by simp, ha⟩
    | false =>
      rcases ih with h | ⟨pre, sub, post, rfl, hpre, hsub⟩
      · left
        intro x hx
        rcases List.mem_cons.1 hx with rfl | hx
        · exact ha
        · exact h x hx
      · right
        refine ⟨a :: pre, sub, post, rfl, ?_, hsub⟩
        intro x hx
        rcases List.mem_cons.1 hx with rfl | hx
        · exact ha
        · exact hpre x hx

theorem setSubnetAt_append (pre : List TbSubnetInfo) (sub x : TbSubnetInfo)
    (post : List TbSubnetInfo) (i : Nat) (hi : i = pre.length) :
    setSubnetAt (pre ++ sub :: post) i x = pre ++ x :: post := by
  subst hi
  induction pre with
  | nil => rfl
  | cons a pre ih => simp [setSubnetAt, ih]

theorem GetResource_never_untyped (s : Store) (nsId vNetId : String) :
    GetResource s nsId vNetId ≠ (none, none) := by
  unfold GetResource
  cases s.vnets.find? (fun e => e.1 == nsId && e.2.Id == vNetId) <;> simp

theorem GetResource_id (s : Store) (nsId vNetId : String) (V : TbVNetInfo)
    (h : GetResource s nsId vNetId = (some V, none)) : V.Id = vNetId := by
  unfold GetResource at h
  cases hf : s.vnets.find? (fun e => e.1 == nsId && e.2.Id == vNetId) with
  | none => simp [hf] at h
  | some e =>
    simp only [hf, Prod.mk.injEq, Option.some.injEq, and_true] at h
    have hp := List.find?_some hf
    simp only [Bool.and_eq_true, beq_iff_eq] at hp
    rw [← h]
    exact hp.2

theorem find_after_update (nsId vNetId : String) (V1 : TbVNetInfo) (hid : V1.Id = vNetId)
    (l : List (String × TbVNetInfo)) :
    (l.map (fun e => if e.1 == nsId && e.2.Id == V1.Id then (nsId, V1) else e)).find?
        (fun e => e.1 == nsId && e.2.Id == vNetId) =
      (l.find? (fun e => e.1 == nsId && e.2.Id == vNetId)).map (fun _ => (nsId, V1)) := by
  subst hid
  induction l with
  | nil => rfl
  | cons a l ih =>
    cases ha : (a.1 == nsId && a.2.Id == V1.Id) with
    | true => simp [List.find?, ha]
    | false =>
      simp only [List.map_cons, ha, Bool.false_eq_true, if_false, List.find?_cons]
      exact ih

/-- Reading a VNet back after `UpdateResourceObject` gives the aggregate that
was written. -/
theorem GetResource_update (s : Store) (nsId vNetId : String) (V V1 : TbVNetInfo)
    (h : GetResource s nsId vNetId = (some V, none)) (hid : V1.Id = vNetId) :
    GetResource (UpdateResourceObject s nsId V1) nsId vNetId = (some V1, none) := by
  unfold GetResource at h ⊢
  unfold UpdateResourceObject
  simp only [find_after_update nsId vNetId V1 hid]
  cases hf : s.vnets.find? (fun e => e.1 == nsId && e.2.Id == vNetId) with
  | none => simp [hf] at h
  | some e => rfl

theorem SetBastionNodes_loop_skip (s : Store) (nsId mcisId targetVmId bastionVmId : String)
    (vmObj : TbVmInfo) (V : TbVNetInfo) (rest : List TbSubnetInfo) :
    ∀ (pre : List TbSubnetInfo) (i : Nat), (∀ x ∈ pre, (x.Id == vmObj.SubnetId) = false) →
      SetBastionNodes.loop s nsId mcisId targetVmId bastionVmId vmObj V i (pre ++ rest) =
        SetBastionNodes.loop s nsId mcisId targetVmId bastionVmId vmObj V (i + pre.length)
          rest := by
  intro pre
  induction pre with
  | nil =>
    intro i _
    rfl
  | cons a pre ih =>
    intro i h
    have ha := h a (List.mem_cons_self _ _)
    simp only [List.cons_append, SetBastionNodes.loop, ha, Bool.false_eq_true, if_false,
      List.append_eq]
    rw [ih (i + 1) (fun x hx => h x (List.mem_cons_of_mem _ hx))]
    congr 1
    simp only [List.length_cons]
    omega

theorem GetBastionNodes_loop_skip (targetVmId : String) (vmObj : TbVmInfo)
    (rest : List TbSubnetInfo) :
    ∀ (pre : List TbSubnetInfo), (∀ x ∈ pre, (x.Id == vmObj.SubnetId) = false) →
      GetBastionNodes.loop targetVmId vmObj (pre ++ rest) =
        GetBastionNodes.loop targetVmId vmObj rest := by
  intro pre
  induction pre with
  | nil =>
    intro _
    rfl
  | cons a pre ih =>
    intro h
    have ha := h a (List.mem_cons_self _ _)
    simp only [List.cons_append, GetBastionNodes.loop, ha, Bool.false_eq_true, if_false,
      List.append_eq]
    exact ih (fun x hx => h x (List.mem_cons_of_mem _ hx))

/-- The call that finds the bastion already registered: no write. -/
theorem SetBastionNodes_present (s : Store) (nsId mcisId targetVmId bastionVmId : String)
    (vmObj : TbVmInfo) (V : TbVNetInfo) (pre : List TbSubnetInfo) (sub : TbSubnetInfo)
    (post : List TbSubnetInfo) (hf : SubnetFound s nsId mcisId targetVmId vmObj V pre sub post)
    (hb : bastionVmId ∈ sliceElems sub.BastionNodeIds) :
    SetBastionNodes s nsId mcisId targetVmId bastionVmId =
      ⟨msgAlreadyExists bastionVmId vmObj.SubnetId vmObj.VNetId, none, [], s⟩ := by
  obtain ⟨hvm, hvnet, hsplit, hpre, hsub⟩ := hf
  have hany : (sliceElems sub.BastionNodeIds).any (fun existingId => existingId == bastionVmId)
      = true := by
    rw [List.any_eq_true]
    exact ⟨bastionVmId, hb, by simp⟩
  have hid : sub.Id = vmObj.SubnetId := by simpa using hsub
  simp only [SetBastionNodes, hvm, hvnet, hsplit]
  rw [SetBastionNodes_loop_skip _ _ _ _ _ _ _ _ pre 0 hpre]
  simp only [SetBastionNodes.loop, hsub, hany, if_true]
  rw [hid]

/-- The call that registers a new bastion: one write, of the aggregate with
the bastion appended to the subnet's list. -/
theorem SetBastionNodes_new (s : Store) (nsId mcisId targetVmId bastionVmId : String)
    (vmObj : TbVmInfo) (V : TbVNetInfo) (pre : List TbSubnetInfo) (sub : TbSubnetInfo)
    (post : List TbSubnetInfo) (hf : SubnetFound s nsId mcisId targetVmId vmObj V pre sub post)
    (hb : bastionVmId ∉ sliceElems sub.BastionNodeIds) :
    SetBastionNodes s nsId mcisId targetVmId bastionVmId =
      ⟨msgSet bastionVmId vmObj.SubnetId vmObj.VNetId targetVmId mcisId, none,
        [(nsId, { V with SubnetInfoList := pre ++
            { sub with BastionNodeIds := some (sliceElems sub.BastionNodeIds ++ [bastionVmId]) }
              :: post })],
        UpdateResourceObject s nsId { V with SubnetInfoList := pre ++
            { sub with BastionNodeIds := some (sliceElems sub.BastionNodeIds ++ [bastionVmId]) }
              :: post }⟩ := by
  obtain ⟨hvm, hvnet, hsplit, hpre, hsub⟩ := hf
  have hany : (sliceElems sub.BastionNodeIds).any (fun existingId => existingId == bastionVmId)
      = false := by
    rw [List.any_eq_false]
    intro x hx
    simp only [beq_iff_eq]
    rintro rfl
    exact hb hx
  have hid : sub.Id = vmObj.SubnetId := by simpa using hsub
  simp only [SetBastionNodes, hvm, hvnet, hsplit]
  rw [SetBastionNodes_loop_skip _ _ _ _ _ _ _ _ pre 0 hpre]
  simp only [SetBastionNodes.loop, hsub, hany, if_true, Bool.false_eq_true, if_false,
    hsplit, setSubnetAt_append pre sub _ post (0 + pre.length) (Nat.zero_add _), sliceAppend]
  rw [hid]

/-- Every call of `SetBastionNodes` either fails without a write, or finds
the VM's subnet. -/
theorem SetBastionNodes_cases (s : Store) (nsId mcisId targetVmId bastionVmId : String) :
    ((SetBastionNodes s nsId mcisId targetVmId bastionVmId).err ≠ none ∧
      (SetBastionNodes s nsId mcisId targetVmId bastionVmId).puts = [] ∧
      (SetBastionNodes s nsId mcisId targetVmId bastionVmId).store = s) ∨
    ∃ vmObj V pre sub post, SubnetFound s nsId mcisId targetVmId vmObj V pre sub post := by
  rcases hvm : GetVmObject s nsId mcisId targetVmId with ⟨vmObj, e⟩
  cases e with
  | some e =>
    left
    simp [SetBastionNodes, hvm]
  | none =>
    rcases hvnet : GetResource s nsId vmObj.VNetId with ⟨oV, e⟩
    cases e with
    | some e =>
      left
      simp [SetBastionNodes, hvm, hvnet]
    | none =>
      cases oV with
      | none => exact absurd hvnet (GetResource_never_untyped s nsId vmObj.VNetId)
      | some V =>
        rcases subnets_split vmObj.SubnetId V.SubnetInfoList with hno | ⟨pre, sub, post, h1, h2, h3⟩
        · left
          have := SetBastionNodes_loop_skip s nsId mcisId targetVmId bastionVmId vmObj V []
            V.SubnetInfoList 0 hno
          simp only [List.append_nil] at this
          simp [SetBastionNodes, hvm, hvnet, this, SetBastionNodes.loop]
        · exact Or.inr ⟨vmObj, V, pre, sub, post, ⟨hvm, hvnet, h1, h2, h3⟩⟩

/-- What `GetBastionNodes` returns once the VM's subnet is found. -/
theorem GetBastionNodes_found (s : Store) (nsId mcisId targetVmId : String)
    (vmObj : TbVmInfo) (V : TbVNetInfo) (pre : List TbSubnetInfo) (sub : TbSubnetInfo)
    (post : List TbSubnetInfo) (hf : SubnetFound s nsId mcisId targetVmId vmObj V pre sub post) :
    GetBastionNodes s nsId mcisId targetVmId =
      if sub.BastionNodeIds == none then
        (⟨none⟩, some (errNoBastion vmObj.SubnetId vmObj.VNetId targetVmId))
      else (⟨sub.BastionNodeIds⟩, none) := by
  obtain ⟨hvm, hvnet, hsplit, hpre, hsub⟩ := hf
  simp only [GetBastionNodes, hvm, hvnet, hsplit]
  rw [GetBastionNodes_loop_skip _ _ _ pre hpre]
  simp only [GetBastionNodes.loop, hsub, if_true]

/-- After a new registration the VM's subnet is found again, now holding the
appended list. -/
theorem SubnetFound_after_new (s : Store) (nsId mcisId targetVmId bastionVmId : String)
    (vmObj : TbVmInfo) (V : TbVNetInfo) (pre : List TbSubnetInfo) (sub : TbSubnetInfo)
    (post : List TbSubnetInfo) (hf : SubnetFound s nsId mcisId targetVmId vmObj V pre sub post) :
    SubnetFound
      (UpdateResourceObject s nsId { V with SubnetInfoList := pre ++
        { sub with BastionNodeIds := some (sliceElems sub.BastionNodeIds ++ [bastionVmId]) }
          :: post })
      nsId mcisId targetVmId vmObj
      { V with SubnetInfoList := pre ++
        { sub with BastionNodeIds := some (sliceElems sub.BastionNodeIds ++ [bastionVmId]) }
          :: post }
      pre { sub with BastionNodeIds := some (sliceElems sub.BastionNodeIds ++ [bastionVmId]) }
      post := by
  obtain ⟨hvm, hvnet, hsplit, hpre, hsub⟩ := hf
  refine ⟨hvm, ?_, rfl, hpre, hsub⟩
  exact GetResource_update s nsId vmObj.VNetId V _ hvnet (GetResource_id s nsId _ V hvnet)

/-! ## Registering a bastion twice -/

/-- C4: `SetBastionNodes` is idempotent. After a first call that succeeds, a
second call with the same arguments returns a nil error and the "already
exists" message, makes no write and leaves the store, hence the subnet's
bastion list, as the first call left it; and if the subnet had no bastion
before the first call, its list is `[bastionVmId]`, of length 1, after both. -/
theorem SetBastionNodes_idempotent (s : Store) (nsId mcisId targetVmId bastionVmId : String)
    (h1 : (SetBastionNodes s nsId mcisId targetVmId bastionVmId).err = none) :
    SetBastionNodes (SetBastionNodes s nsId mcisId targetVmId bastionVmId).store nsId mcisId
        targetVmId bastionVmId =
      ⟨msgAlreadyExists bastionVmId (GetVmObject s nsId mcisId targetVmId).1.SubnetId
          (GetVmObject s nsId mcisId targetVmId).1.VNetId, none, [],
        (SetBastionNodes s nsId mcisId targetVmId bastionVmId).store⟩ ∧
    GetBastionNodes
        (SetBastionNodes (SetBastionNodes s nsId mcisId targetVmId bastionVmId).store nsId mcisId
          targetVmId bastionVmId).store nsId mcisId targetVmId =
      GetBastionNodes (SetBastionNodes s nsId mcisId targetVmId bastionVmId).store nsId mcisId
        targetVmId ∧
    (sliceElems (GetBastionNodes s nsId mcisId targetVmId).1.VmId = [] →
      GetBastionNodes
          (SetBastionNodes (SetBastionNodes s nsId mcisId targetVmId bastionVmId).store nsId
            mcisId targetVmId bastionVmId).store nsId mcisId targetVmId =
        (⟨some [bastionVmId]⟩, none) ∧
      (sliceElems (GetBastionNodes
          (SetBastionNodes (SetBastionNodes s nsId mcisId targetVmId bastionVmId).store nsId
            mcisId targetVmId bastionVmId).store nsId mcisId targetVmId).1.VmId).length = 1) := by
  rcases SetBastionNodes_cases s nsId mcisId targetVmId bastionVmId with
    ⟨herr, _, _⟩ | ⟨vmObj, V, pre, sub, post, hf⟩
  · exact absurd h1 herr
  · have hvm : (GetVmObject s nsId mcisId targetVmId).1 = vmObj := by rw [hf.hvm]
    rw [hvm]
    by_cases hb : bastionVmId ∈ sliceElems sub.BastionNodeIds
    · have hfirst := SetBastionNodes_present s nsId mcisId targetVmId bastionVmId vmObj V pre sub
        post hf hb
      rw [hfirst]
      simp only
      rw [hfirst]
      refine ⟨rfl, rfl, ?_⟩
      intro hnone
      rw [GetBastionNodes_found s nsId mcisId targetVmId vmObj V pre sub post hf] at hnone
      exfalso
      cases hbn : sub.BastionNodeIds with
      | none =>
        rw [hbn] at hb
        simp [sliceElems] at hb
      | some l =>
        rw [hbn] at hb hnone
        simp only [sliceElems] at hb
        have : l = [] := by simpa [sliceElems] using hnone
        subst this
        simp at hb
    · have hfirst := SetBastionNodes_new s nsId mcisId targetVmId bastionVmId vmObj V pre sub
        post hf hb
      have hf2 := SubnetFound_after_new s nsId mcisId targetVmId bastionVmId vmObj V pre sub
        post hf
      have hsecond := SetBastionNodes_present _ nsId mcisId targetVmId bastionVmId vmObj _ pre _
        post hf2 (by simp [sliceElems])
      rw [hfirst]
      simp only
      rw [hsecond]
      refine ⟨rfl, rfl, ?_⟩
      intro hnone
      simp only
      rw [GetBastionNodes_found _ nsId mcisId targetVmId vmObj _ pre _ post hf2]
      rw [GetBastionNodes_found s nsId mcisId targetVmId vmObj V pre sub post hf] at hnone
      have hempty : sliceElems sub.BastionNodeIds = [] := by
        cases hbn : sub.BastionNodeIds with
        | none => rfl
        | some l =>
          rw [hbn] at hnone
          simpa [sliceElems] using hnone
      rw [hempty]
      exact ⟨rfl, rfl⟩

/-- C4 at the example fleet: registering `bastion1` for `vm2`, whose subnet
`sn2` has no bastion, and registering it again. -/
theorem SetBastionNodes_idempotent_witness :
    (SetBastionNodes exStore "ns1" "mcis1" "vm2" "bastion1").err = none ∧
    (SetBastionNodes (SetBastionNodes exStore "ns1" "mcis1" "vm2" "bastion1").store "ns1" "mcis1"
        "vm2" "bastion1").msg =
      "Bastion (ID: bastion1) already exists in subnet (ID: sn2) in VNet (ID: vnet1)." ∧
    (SetBastionNodes (SetBastionNodes exStore "ns1" "mcis1" "vm2" "bastion1").store "ns1" "mcis1"
        "vm2" "bastion1").puts = [] ∧
    GetBastionNodes
        (SetBastionNodes (SetBastionNodes exStore "ns1" "mcis1" "vm2" "bastion1").store "ns1"
          "mcis1" "vm2" "bastion1").store "ns1" "mcis1" "vm2" =
      (⟨some ["bastion1"]⟩, none) := by
  have h := SetBastionNodes_idempotent exStore "ns1" "mcis1" "vm2" "bastion1" rfl
  refine ⟨rfl, ?_, ?_, (h.2.2 rfl).1⟩
  · rw [h.1]
    rfl
  · rw [h.1]

/-! ## A subnet whose bastion list is present and empty -/

/-- C5: the failing input. Subnet `sn3` of the example VNet is found and has
a bastion list that is allocated with zero entries. `GetBastionNodes` for
`vm3` returns that empty list with a nil error instead of the "no assigned
bastion" error it returns for the nil list of `sn2`, and `RunRemoteCommand`
then aborts reading element 0. -/
theorem GetBastionNodes_present_empty_list :
    GetBastionNodes exStore "ns1" "mcis1" "vm2" =
      (⟨none⟩, some (errNoBastion "sn2" "vnet1" "vm2")) ∧
    GetBastionNodes exStore "ns1" "mcis1" "vm3" = (⟨some []⟩, none) ∧
    RunRemoteCommand exNet exStore "ns1" "mcis1" "vm3" "" ["echo hi"] =
      .panic "index out of range [0] with length 0" :=
  ⟨rfl, rfl, rfl⟩

/-! ## Truncation of the output maps -/

/-- C6: if both hops are up and command `k` is the first to fail, the maps
returned by `runSSH` are truncated at `k`: the standard-output map has
exactly the keys `0..k-1`, the standard-error map exactly the keys `0..k`,
and neither has a key greater than `k`. -/
theorem runSSH_truncates_at_first_failure (net : SshNet) (b t : sshInfo) (cmds : List String)
    (k : Nat) (hconn : Connected net b t) (hfail : FirstFailureAt net t cmds k) :
    mapKeys (runSSH net b t cmds).1 = List.range k ∧
    mapKeys (runSSH net b t cmds).2.1 = List.range (k + 1) ∧
    ∀ j, k < j → j ∉ mapKeys (runSSH net b t cmds).1 ∧ j ∉ mapKeys (runSSH net b t cmds).2.1 := by
  rw [runSSH_first_failure net b t cmds k hconn hfail]
  have h1 : mapKeys (stdoutUpTo net t cmds k) = List.range k := mapKeys_map_range _ k
  have h2 : mapKeys (stderrUpTo net t cmds k ++ [(k, failureNote net t cmds k)]) =
      List.range (k + 1) := by
    have h3 : mapKeys (stderrUpTo net t cmds k) = List.range k := mapKeys_map_range _ k
    unfold mapKeys at h3 ⊢
    rw [List.map_append, h3, List.range_succ]
    rfl
  refine ⟨h1, h2, ?_⟩
  intro j hj
  simp only [h1, h2, List.mem_range]
  omega

/-- C6 at the example fleet: in the batch `echo hi`, `false`, `ls` command 1
is the first to fail; standard output has key 0, standard error keys 0, 1. -/
theorem runSSH_truncates_at_first_failure_witness :
    mapKeys (runSSH exNet (bastionSshInfoOf exStore "ns1" "mcis1" "bastion1" "")
      (targetSshInfoOf exStore "ns1" "mcis1" "vm1" "") ["echo hi", "false", "ls"]).1 =
        List.range 1 ∧
    mapKeys (runSSH exNet (bastionSshInfoOf exStore "ns1" "mcis1" "bastion1" "")
      (targetSshInfoOf exStore "ns1" "mcis1" "vm1" "") ["echo hi", "false", "ls"]).2.1 =
        List.range 2 :=
  have h := runSSH_truncates_at_first_failure exNet
    (bastionSshInfoOf exStore "ns1" "mcis1" "bastion1" "")
    (targetSshInfoOf exStore "ns1" "mcis1" "vm1" "") ["echo hi", "false", "ls"] 1
    ⟨rfl, rfl, rfl, rfl, rfl, rfl⟩
    ⟨by decide, fun _ _ => rfl, fun j hj => by interval_cases j; rfl,
      fun h => by
        have h2 : (exNet.Run (targetSshInfoOf exStore "ns1" "mcis1" "vm1" "") 1
            (["echo hi", "false", "ls"].getD 1 "")).2.2 = some "Process exited with status 1" :=
          rfl
        rw [h2] at h
        cases h⟩
  ⟨h.1, h.2.1⟩

/-! ## A fleet without VMs -/

/-- C7, as stated, fails: the fleet `empty` exists and lists no VM; the call
with no subgroup and no VM id returns a nil error (and a nil result list),
not a NoTargets error. -/
theorem RemoteCommandToMcis_empty_fleet_counterexample :
    exEnv.CheckMcis "ns1" "empty" = true ∧
    exEnv.ListVmId "ns1" "empty" = (none, none) ∧
    RemoteCommandToMcis exEnv exNet exStore "ns1" "empty" "" "" ⟨"", ["echo hi"]⟩ =
      .ret (none, none) ∧
    ¬ ∃ (rs : Slice SshCmdResult) (e : String),
      RemoteCommandToMcis exEnv exNet exStore "ns1" "empty" "" "" ⟨"", ["echo hi"]⟩ =
        .ret (rs, some e) := by
  refine ⟨rfl, rfl, rfl, ?_⟩
  rw [show RemoteCommandToMcis exEnv exNet exStore "ns1" "empty" "" "" ⟨"", ["echo hi"]⟩ =
    .ret (none, none) from rfl]
  rintro ⟨rs, e, h⟩
  cases h

/-- C7, amended: for every existing fleet that contains zero VMs,
`RemoteCommandToMcis` called with a valid request, empty `subGroupId` and
empty `vmId` launches no unit and returns a nil error with a nil result
list. -/
theorem RemoteCommandToMcis_empty_fleet (env : Env) (net : SshNet) (s : Store)
    (nsId mcisId : String) (req : McisCmdReq) (vmList : Slice String)
    (hns : env.CheckString nsId = none) (hmcis : env.CheckString mcisId = none)
    (hreq : env.validateStruct req = none) (hcheck : env.CheckMcis nsId mcisId = true)
    (hlist : env.ListVmId nsId mcisId = (vmList, none)) (hempty : sliceElems vmList = []) :
    RemoteCommandToMcis env net s nsId mcisId "" "" req = .ret (none, none) := by
  have hv : RemoteCommandToMcis.vmList env nsId mcisId "" "" req = .ok vmList := by
    simp [RemoteCommandToMcis.vmList, hns, hmcis, hreq, hcheck, hlist]
  simp only [RemoteCommandToMcis, hv, hempty, RemoteCommandToMcis.fanOut, Exec.bind]

/-- C7 amended, at a fleet whose VM list is allocated and empty. -/
theorem RemoteCommandToMcis_empty_fleet_witness :
    RemoteCommandToMcis { exEnv with ListVmId := fun _ _ => (some [], none) } exNet exStore
      "ns1" "empty" "" "" ⟨"", ["echo hi"]⟩ = .ret (none, none) :=
  RemoteCommandToMcis_empty_fleet { exEnv with ListVmId := fun _ _ => (some [], none) } exNet
    exStore "ns1" "empty" ⟨"", ["echo hi"]⟩ (some []) rfl rfl rfl rfl rfl rfl

/-! ## The probe against a host that never accepts -/

/-- C8: the failing input. Against a host at which every dial fails,
`CheckConnectivity` makes one dial, calls `Close` on the nil connection and
aborts there: one attempt, no sleep, no PortUnreachable error returned. -/
theorem CheckConnectivity_never_accepting (e host port : String) :
    CheckConnectivity (fun _ _ _ => some e) host port =
      (.panic "invalid memory address or nil pointer dereference", ⟨1, []⟩) :=
  rfl

/-! ## A given VM id -/

/-- C9: for an existing fleet, a valid request and a non-empty `vmId`, when
`subGroupId` is empty or names a subgroup with a non-empty member list, the
target list is exactly `[vmId]`, whether or not `vmId` is in the subgroup, and
the call runs the one unit of `vmId`. -/
theorem RemoteCommandToMcis_vmId_singleton (env : Env) (net : SshNet) (s : Store)
    (nsId mcisId subGroupId vmId : String) (req : McisCmdReq)
    (hns : env.CheckString nsId = none) (hmcis : env.CheckString mcisId = none)
    (hreq : env.validateStruct req = none) (hcheck : env.CheckMcis nsId mcisId = true)
    (hlist : (env.ListVmId nsId mcisId).2 = none) (hvm : vmId ≠ "")
    (hgroup : subGroupId = "" ∨
      ∃ l, l ≠ [] ∧ env.ListVmBySubGroup nsId mcisId subGroupId = (some l, none)) :
    RemoteCommandToMcis.vmList env nsId mcisId subGroupId vmId req = .ok (some [vmId]) ∧
    RemoteCommandToMcis env net s nsId mcisId subGroupId vmId req =
      (RunRemoteCommandAsync net s nsId mcisId vmId req.UserName req.Command none).bind
        (fun resultArray => .ret (resultArray, none)) := by
  have hv : RemoteCommandToMcis.vmList env nsId mcisId subGroupId vmId req =
      .ok (some [vmId]) := by
    rcases hl : env.ListVmId nsId mcisId with ⟨l0, e0⟩
    rw [hl] at hlist
    simp only at hlist
    subst hlist
    rcases hgroup with rfl | ⟨l, _, hl2⟩
    · simp [RemoteCommandToMcis.vmList, hns, hmcis, hreq, hcheck, hl, hvm]
    · by_cases hsub : subGroupId = ""
      · subst hsub
        simp [RemoteCommandToMcis.vmList, hns, hmcis, hreq, hcheck, hl, hvm]
      · simp [RemoteCommandToMcis.vmList, hns, hmcis, hreq, hcheck, hl, hvm, hsub, hl2]
  refine ⟨hv, ?_⟩
  simp only [RemoteCommandToMcis, hv, sliceElems, RemoteCommandToMcis.fanOut]
  cases RunRemoteCommandAsync net s nsId mcisId vmId req.UserName req.Command none <;> rfl

/-- C9 at the example fleet: subgroup `g1` has the members `vm1` and `vm2`;
with `vmId = bastion1`, not a member, the target list is `[bastion1]`. -/
theorem RemoteCommandToMcis_vmId_singleton_witness :
    RemoteCommandToMcis.vmList exEnv "ns1" "mcis1" "g1" "bastion1" ⟨"", ["echo hi"]⟩ =
      .ok (some ["bastion1"]) :=
  (RemoteCommandToMcis_vmId_singleton exEnv exNet exStore "ns1" "mcis1" "g1" "bastion1"
    ⟨"", ["echo hi"]⟩ rfl rfl rfl rfl rfl (by simp)
    (Or.inr ⟨["vm1", "vm2"], by simp, rfl⟩)).1

/-! ## A VM whose bastion resolution fails -/

/-- When `GetBastionNodes` fails for a VM with error `e`, the failure stays
in that VM's unit: `RunRemoteCommand` returns `e` with two empty maps, and the
unit appends one result carrying `e` in `Err`, empty `Stdout` and `Stderr`,
and a `Command` map that lists every command of the batch under its index. -/
theorem bastion_failure_unit_result (net : SshNet) (s : Store)
    (nsId mcisId vm : String) (req : McisCmdReq) (e : String)
    (herr : (GetBastionNodes s nsId mcisId vm).2 = some e) :
    RunRemoteCommand net s nsId mcisId vm req.UserName req.Command = .ret ([], [], some e) ∧
    (∀ acc : Slice SshCmdResult,
      RunRemoteCommandAsync net s nsId mcisId vm req.UserName req.Command acc =
        .ret (sliceAppend acc
          ⟨mcisId, vm, (GetVmIp s nsId mcisId vm).1, commandMap req.Command, [], [], some e⟩)) ∧
    mapKeys (commandMap req.Command) = List.range req.Command.length ∧
    (∀ i, i < req.Command.length →
      mapGet (commandMap req.Command) i = some (req.Command.getD i "")) := by
  have hrun := RunRemoteCommand_bastion_error net s nsId mcisId vm req.UserName req.Command e herr
  refine ⟨hrun, ?_, ?_, ?_⟩
  · exact fun acc => RunRemoteCommandAsync_of_ret net s nsId mcisId vm req.UserName
      req.Command acc [] [] (some e) hrun
  · rw [commandMap_eq]
    exact mapKeys_map_range _ _
  · intro i hi
    rw [commandMap_eq]
    exact mapGet_map_range _ _ i hi

/-- C10: the failing input. On the example fleet subgroup `g1` resolves to
`vm1` and `vm2`, and bastion resolution fails for `vm2`. That failure is
captured in the unit of `vm2`: `RunRemoteCommand` returns the error with two
empty maps and the unit's result carries it in `Err` next to the full
`Command` map. The unit of the sibling `vm1` produces its own result. But the
two units append to the shared slice with a plain read and a plain write and
no lock: under the schedule in which both read before either writes and `vm2`
writes last, the dispatch returns the result of `vm2` alone, and the result
of the sibling `vm1` is not among the results returned. -/
theorem bastion_failure_sibling_result_lost :
    RemoteCommandToMcis.vmList exEnv "ns1" "mcis1" "g1" "" ⟨"", ["echo hi"]⟩ =
      .ok (some ["vm1", "vm2"]) ∧
    (GetBastionNodes exStore "ns1" "mcis1" "vm2").2 = some (errNoBastion "sn2" "vnet1" "vm2") ∧
    RunRemoteCommand exNet exStore "ns1" "mcis1" "vm2" "" ["echo hi"] =
      .ret ([], [], some (errNoBastion "sn2" "vnet1" "vm2")) ∧
    RunRemoteCommandAsync exNet exStore "ns1" "mcis1" "vm2" "" ["echo hi"] none =
      .ret (some [⟨"mcis1", "vm2", "1.1.1.2", [(0, "echo hi")], [], [],
        some (errNoBastion "sn2" "vnet1" "vm2")⟩]) ∧
    RunRemoteCommandAsync exNet exStore "ns1" "mcis1" "vm1" "" ["echo hi"] none =
      .ret (some [exResultVm1]) ∧
    fanOutInterleaved [exResultVm1, exResultVm2] [0, 1, 0, 1] = some (some [exResultVm2]) ∧
    exResultVm1 ∉ [exResultVm2] := by
  have h := bastion_failure_unit_result exNet exStore "ns1" "mcis1" "vm2" ⟨"", ["echo hi"]⟩
    (errNoBastion "sn2" "vnet1" "vm2") rfl
  refine ⟨rfl, rfl, h.1, ?_, rfl, rfl, ?_⟩
  · rw [h.2.1 none]
    rfl
  · intro hmem
    rw [List.mem_singleton] at hmem
    have hid : exResultVm1.VmId = exResultVm2.VmId := by rw [hmem]
    simp [exResultVm1, exResultVm2] at hid

/-! ## Concurrent appends to the shared result slice -/

/-- C11: the failing schedule. The units append to the shared slice with a
plain read followed by a plain write and no lock. For any two units with
results `a` and `b`, the schedule in which each unit reads and writes in turn
returns both results, and the schedule in which both units read before either
writes returns `b` alone: the result `a` is lost. On the example fleet these
are the results of `vm1` and `vm2`. -/
theorem fanOut_unsynchronised_append_loses_result :
    (∀ a b : SshCmdResult,
      fanOutInterleaved [a, b] [0, 0, 1, 1] = some (some [a, b]) ∧
      fanOutInterleaved [a, b] [0, 1, 0, 1] = some (some [b])) ∧
    RunRemoteCommandAsync exNet exStore "ns1" "mcis1" "vm1" "" ["echo hi"] none =
      .ret (some [exResultVm1]) ∧
    RunRemoteCommandAsync exNet exStore "ns1" "mcis1" "vm2" "" ["echo hi"] none =
      .ret (some [exResultVm2]) ∧
    RemoteCommandToMcis exEnv exNet exStore "ns1" "mcis1" "g1" "" ⟨"", ["echo hi"]⟩ =
      .ret (some [exResultVm1, exResultVm2], none) ∧
    fanOutInterleaved [exResultVm1, exResultVm2] [0, 1, 0, 1] = some (some [exResultVm2]) :=
  ⟨fun _ _ => ⟨rfl, rfl⟩, rfl, rfl, rfl, rfl⟩

/-! ## Lemmas on a new registration -/

theorem GetResource_mem (s : Store) (nsId vNetId : String) (V : TbVNetInfo)
    (h : GetResource s nsId vNetId = (some V, none)) : ∃ e ∈ s.vnets, e.2 = V := by
  unfold GetResource at h
  cases hf : s.vnets.find? (fun e => e.1 == nsId && e.2.Id == vNetId) with
  | none => simp [hf] at h
  | some e =>
    simp only [hf, Prod.mk.injEq, Option.some.injEq, and_true] at h
    exact ⟨e, List.mem_of_find?_eq_some hf, h⟩

/-- Once the VM's subnet is found, the elements `GetBastionNodes` reports are
those of the subnet's list (none for a nil list). -/
theorem GetBastionNodes_found_elems (s : Store) (nsId mcisId targetVmId : String)
    (vmObj : TbVmInfo) (V : TbVNetInfo) (pre : List TbSubnetInfo) (sub : TbSubnetInfo)
    (post : List TbSubnetInfo) (hf : SubnetFound s nsId mcisId targetVmId vmObj V pre sub post) :
    sliceElems (GetBastionNodes s nsId mcisId targetVmId).1.VmId =
      sliceElems sub.BastionNodeIds := by
  rw [GetBastionNodes_found s nsId mcisId targetVmId vmObj V pre sub post hf]
  cases sub.BastionNodeIds <;> rfl

/-- A call of `SetBastionNodes` that returns no error has found the VM's
subnet. -/
theorem SetBastionNodes_ok_found (s : Store) (nsId mcisId targetVmId bastionVmId : String)
    (hok : (SetBastionNodes s nsId mcisId targetVmId bastionVmId).err = none) :
    ∃ vmObj V pre sub post, SubnetFound s nsId mcisId targetVmId vmObj V pre sub post := by
  rcases SetBastionNodes_cases s nsId mcisId targetVmId bastionVmId with ⟨herr, _, _⟩ | h
  · exact absurd hok herr
  · exact h

/-! ## What a new registration writes -/

/-- C12: a successful `SetBastionNodes` call for a bastion id `b` that is not
yet in the VM's subnet reads the VNet aggregate `V`, in which the VM's subnet
`sub` is the first with the VM's subnet id, and writes back once: the
aggregate written is `V` with every field as read, every other subnet as
read and in place, and `sub` with every field as read except its bastion
list, which is the old list with `b` appended at the end (so the entry at
index 0 stays where it is). A following `GetBastionNodes` for the same VM
returns the old list followed by `b`. -/
theorem SetBastionNodes_appends_only (s : Store) (nsId mcisId targetVmId bastionVmId : String)
    (hok : (SetBastionNodes s nsId mcisId targetVmId bastionVmId).err = none)
    (hnew : bastionVmId ∉ sliceElems (GetBastionNodes s nsId mcisId targetVmId).1.VmId) :
    ∃ (V : TbVNetInfo) (pre : List TbSubnetInfo) (sub : TbSubnetInfo)
      (post : List TbSubnetInfo),
      GetResource s nsId (GetVmObject s nsId mcisId targetVmId).1.VNetId = (some V, none) ∧
      V.SubnetInfoList = pre ++ sub :: post ∧
      (∀ x ∈ pre, x.Id ≠ (GetVmObject s nsId mcisId targetVmId).1.SubnetId) ∧
      sub.Id = (GetVmObject s nsId mcisId targetVmId).1.SubnetId ∧
      sliceElems sub.BastionNodeIds =
        sliceElems (GetBastionNodes s nsId mcisId targetVmId).1.VmId ∧
      (SetBastionNodes s nsId mcisId targetVmId bastionVmId).puts =
        [(nsId, { V with SubnetInfoList := pre ++
            { sub with BastionNodeIds := some (sliceElems sub.BastionNodeIds ++ [bastionVmId]) }
              :: post })] ∧
      (SetBastionNodes s nsId mcisId targetVmId bastionVmId).store =
        UpdateResourceObject s nsId { V with SubnetInfoList := pre ++
            { sub with BastionNodeIds := some (sliceElems sub.BastionNodeIds ++ [bastionVmId]) }
              :: post } ∧
      (∀ a, (sliceElems sub.BastionNodeIds).head? = some a →
        (sliceElems sub.BastionNodeIds ++ [bastionVmId]).head? = some a) ∧
      GetBastionNodes (SetBastionNodes s nsId mcisId targetVmId bastionVmId).store nsId mcisId
          targetVmId =
        (⟨some (sliceElems (GetBastionNodes s nsId mcisId targetVmId).1.VmId ++ [bastionVmId])⟩,
          none) := by
  obtain ⟨vmObj, V, pre, sub, post, hf⟩ :=
    SetBastionNodes_ok_found s nsId mcisId targetVmId bastionVmId hok
  have helems := GetBastionNodes_found_elems s nsId mcisId targetVmId vmObj V pre sub post hf
  rw [helems] at hnew
  have hset := SetBastionNodes_new s nsId mcisId targetVmId bastionVmId vmObj V pre sub post hf
    hnew
  have hf2 := SubnetFound_after_new s nsId mcisId targetVmId bastionVmId vmObj V pre sub post hf
  have hvm : (GetVmObject s nsId mcisId targetVmId).1 = vmObj := by rw [hf.hvm]
  refine ⟨V, pre, sub, post, ?_, hf.hsplit, ?_, ?_, helems.symm, ?_, ?_, ?_, ?_⟩
  · rw [hvm]
    exact hf.hvnet
  · intro x hx
    rw [hvm]
    have := hf.hpre x hx
    simpa using this
  · rw [hvm]
    simpa using hf.hsub
  · rw [hset]
  · rw [hset]
  · intro a ha
    cases hl : sliceElems sub.BastionNodeIds with
    | nil => rw [hl] at ha; simp at ha
    | cons c l => rw [hl] at ha; simpa using ha
  · rw [hset, helems]
    simp only
    rw [GetBastionNodes_found _ nsId mcisId targetVmId vmObj _ pre _ post hf2]
    rfl

/-- C12 at the example fleet: `sn1` holds `bastion1`; registering `vm3` as a
second bastion for `vm1` leaves `bastion1` at index 0 and puts `vm3` after
it. -/
theorem SetBastionNodes_appends_only_witness :
    GetBastionNodes (SetBastionNodes exStore "ns1" "mcis1" "vm1" "vm3").store "ns1" "mcis1"
        "vm1" =
      (⟨some (sliceElems (GetBastionNodes exStore "ns1" "mcis1" "vm1").1.VmId ++ ["vm3"])⟩,
        none) := by
  obtain ⟨_, _, _, _, _, _, _, _, _, _, _, _, h⟩ :=
    SetBastionNodes_appends_only exStore "ns1" "mcis1" "vm1" "vm3" rfl
      (by
        rw [show GetBastionNodes exStore "ns1" "mcis1" "vm1" = (⟨some ["bastion1"]⟩, none)
          from rfl]
        simp [sliceElems])
  exact h

/-! ## Duplicate-freeness of the bastion lists -/

/-- C13: `SetBastionNodes` preserves duplicate-freeness. If every subnet of
every stored VNet has a bastion list without duplicates, the same holds of
the store left by any `SetBastionNodes` call, whether it registers, finds the
bastion already there, or fails. -/
theorem SetBastionNodes_preserves_nodup (s : Store)
    (nsId mcisId targetVmId bastionVmId : String) (h : BastionListsNodup s) :
    BastionListsNodup (SetBastionNodes s nsId mcisId targetVmId bastionVmId).store := by
  rcases SetBastionNodes_cases s nsId mcisId targetVmId bastionVmId with
    ⟨_, _, hstore⟩ | ⟨vmObj, V, pre, sub, post, hf⟩
  · rw [hstore]
    exact h
  · by_cases hb : bastionVmId ∈ sliceElems sub.BastionNodeIds
    · rw [SetBastionNodes_present s nsId mcisId targetVmId bastionVmId vmObj V pre sub post hf hb]
      exact h
    · rw [SetBastionNodes_new s nsId mcisId targetVmId bastionVmId vmObj V pre sub post hf hb]
      obtain ⟨e0, he0, hV⟩ := GetResource_mem s nsId vmObj.VNetId V hf.hvnet
      have hVsub : ∀ x ∈ V.SubnetInfoList, (sliceElems x.BastionNodeIds).Nodup := by
        intro x hx
        rw [← hV] at hx
        exact h e0 he0 x hx
      intro e he x hx
      simp only [UpdateResourceObject, List.mem_map] at he
      obtain ⟨e1, he1, hmap⟩ := he
      split at hmap
      · rw [← hmap] at hx
        simp only [List.mem_append, List.mem_cons] at hx
        rcases hx with hx | rfl | hx
        · exact hVsub x (by rw [hf.hsplit]; simp [hx])
        · simp only
          have hold := hVsub sub (by rw [hf.hsplit]; simp)
          show (sliceElems sub.BastionNodeIds ++ [bastionVmId]).Nodup
          rw [List.nodup_append]
          refine ⟨hold, List.nodup_singleton _, ?_⟩
          intro a ha1 ha2
          rw [List.mem_singleton] at ha2
          subst ha2
          exact hb ha1
        · exact hVsub x (by rw [hf.hsplit]; simp [hx])
      · rw [← hmap] at hx
        exact h e1 he1 x hx

/-- C13 at the example fleet: its bastion lists have no duplicates, and none
after `bastion1` is registered a second time for `vm1`. -/
theorem SetBastionNodes_preserves_nodup_witness :
    BastionListsNodup (SetBastionNodes exStore "ns1" "mcis1" "vm1" "bastion1").store :=
  SetBastionNodes_preserves_nodup exStore "ns1" "mcis1" "vm1" "bastion1"
    (by simp [BastionListsNodup, exStore, exVNet, exSubnet, sliceElems])

/-! ## A failing registration writes nothing -/

/-- C16: `SetBastionNodes` is atomic on failure. When the target VM is not
found, or its VNet is not found, the call returns that error; when the VM's
subnet id is not in the VNet's subnet list it returns the SubnetNotFound
error; and every call that returns an error has made no write and leaves the
store, hence every stored VNet aggregate, as it was. -/
theorem SetBastionNodes_failure_writes_nothing (s : Store)
    (nsId mcisId targetVmId bastionVmId : String) :
    (∀ e, (GetVmObject s nsId mcisId targetVmId).2 = some e →
      SetBastionNodes s nsId mcisId targetVmId bastionVmId = ⟨"", some e, [], s⟩) ∧
    (∀ vmObj e, GetVmObject s nsId mcisId targetVmId = (vmObj, none) →
      (GetResource s nsId vmObj.VNetId).2 = some e →
      SetBastionNodes s nsId mcisId targetVmId bastionVmId = ⟨"", some e, [], s⟩) ∧
    (∀ vmObj V, GetVmObject s nsId mcisId targetVmId = (vmObj, none) →
      GetResource s nsId vmObj.VNetId = (some V, none) →
      (∀ x ∈ V.SubnetInfoList, x.Id ≠ vmObj.SubnetId) →
      SetBastionNodes s nsId mcisId targetVmId bastionVmId =
        ⟨"", some (errSetSubnetNotFound vmObj.SubnetId vmObj.VNetId targetVmId mcisId nsId),
          [], s⟩) ∧
    ((SetBastionNodes s nsId mcisId targetVmId bastionVmId).err ≠ none →
      (SetBastionNodes s nsId mcisId targetVmId bastionVmId).puts = [] ∧
      (SetBastionNodes s nsId mcisId targetVmId bastionVmId).store = s ∧
      (SetBastionNodes s nsId mcisId targetVmId bastionVmId).store.vnets = s.vnets) := by
  refine ⟨?_, ?_, ?_, ?_⟩
  · intro e he
    rcases hvm : GetVmObject s nsId mcisId targetVmId with ⟨vmObj, e1⟩
    rw [hvm] at he
    simp only at he
    subst he
    simp [SetBastionNodes, hvm]
  · intro vmObj e hvm he
    rcases hv : GetResource s nsId vmObj.VNetId with ⟨oV, e1⟩
    rw [hv] at he
    simp only at he
    subst he
    simp [SetBastionNodes, hvm, hv]
  · intro vmObj V hvm hv hno
    have hno2 : ∀ x ∈ V.SubnetInfoList, (x.Id == vmObj.SubnetId) = false := by
      intro x hx
      simpa using hno x hx
    have := SetBastionNodes_loop_skip s nsId mcisId targetVmId bastionVmId vmObj V []
      V.SubnetInfoList 0 hno2
    simp only [List.append_nil] at this
    simp [SetBastionNodes, hvm, hv, this, SetBastionNodes.loop]
  · intro herr
    rcases SetBastionNodes_cases s nsId mcisId targetVmId bastionVmId with
      ⟨_, hputs, hstore⟩ | ⟨vmObj, V, pre, sub, post, hf⟩
    · exact ⟨hputs, hstore, by rw [hstore]⟩
    · exfalso
      apply herr
      by_cases hb : bastionVmId ∈ sliceElems sub.BastionNodeIds
      · rw [SetBastionNodes_present s nsId mcisId targetVmId bastionVmId vmObj V pre sub post hf
          hb]
      · rw [SetBastionNodes_new s nsId mcisId targetVmId bastionVmId vmObj V pre sub post hf hb]

/-- C16 at the example fleet: no VM `nope` exists; the call returns the lookup
error, makes no write and leaves the store as it was. -/
theorem SetBastionNodes_failure_writes_nothing_witness :
    (SetBastionNodes exStore "ns1" "mcis1" "nope" "bastion1").err =
      some "failed to get the VM nope in MCIS mcis1" ∧
    (SetBastionNodes exStore "ns1" "mcis1" "nope" "bastion1").puts = [] ∧
    (SetBastionNodes exStore "ns1" "mcis1" "nope" "bastion1").store = exStore := by
  have h := (SetBastionNodes_failure_writes_nothing exStore "ns1" "mcis1" "nope" "bastion1").2.2.2
    (by
      rw [show (SetBastionNodes exStore "ns1" "mcis1" "nope" "bastion1").err =
        some "failed to get the VM nope in MCIS mcis1" from rfl]
      simp)
  exact ⟨rfl, h.1, h.2.1⟩

/-! ## Lemmas on the logged command loop -/

/-- The logged loop returns what the loop returns. -/
theorem loopLogged_fst (net : SshNet) (t : sshInfo) :
    ∀ (rest : List String) (i : Nat) (so se : IntMap) (log : List SshEvent),
      (runSSH.loopLogged net t i rest so se log).1 = runSSH.loop net t i rest so se := by
  intro rest
  induction rest with
  | nil =>
    intro i so se log
    rfl
  | cons c rest ih =>
    intro i so se log
    simp only [runSSH.loopLogged, runSSH.loop]
    cases net.NewSession t (i + 1) with
    | some err => rfl
    | none =>
      rcases hr : net.Run t i c with ⟨o, b, e⟩
      cases e with
      | some err => rfl
      | none => exact ih (i + 1) _ _ _

/-- The logged `runSSH` returns what `runSSH` returns. -/
theorem runSSHLogged_fst (net : SshNet) (b t : sshInfo) (cmds : List String) :
    (runSSHLogged net b t cmds).1 = runSSH net b t cmds := by
  unfold runSSHLogged runSSH
  cases net.ParsePrivateKey b.PrivateKey <;> simp only
  cases net.ParsePrivateKey t.PrivateKey <;> simp only
  cases net.Dial b <;> simp only
  cases net.DialThrough b t <;> simp only
  cases net.NewClientConn t <;> simp only
  cases net.NewSession t 0 <;> simp only
  exact loopLogged_fst net t cmds 0 [] [] []

/-- The log of the loop up to the first failing command. -/
theorem loopLogged_first_failure (net : SshNet) (t : sshInfo) (cmds : List String) (k : Nat)
    (hfail : FirstFailureAt net t cmds k) :
    ∀ (rest : List String) (i : Nat) (so se : IntMap), cmds.drop i = rest → i ≤ k →
      (runSSH.loopLogged net t i rest so se (iterationEvents cmds i)).2 =
        iterationEvents cmds (k + 1) := by
  obtain ⟨hk, hsess, hok, hbad⟩ := hfail
  intro rest
  induction rest with
  | nil =>
    intro i so se hdrop hik
    have : cmds.length ≤ i := List.drop_eq_nil_iff.1 hdrop
    omega
  | cons c rest ih =>
    intro i so se hdrop hik
    obtain ⟨_, hc, hrest⟩ := drop_eq_cons hdrop
    have hs : net.NewSession t (i + 1) = none := hsess i hik
    have hlog : iterationEvents cmds i ++
        [SshEvent.sessionOpened i, SshEvent.commandRun i c, SshEvent.outputRecorded i] =
        iterationEvents cmds (i + 1) := by
      rw [← hc]
      rfl
    rcases Nat.lt_or_eq_of_le hik with hlt | heq
    · have hrun := hok i hlt
      rw [hc] at hrun
      rcases hr : net.Run t i c with ⟨o, b, e⟩
      rw [hr] at hrun
      simp only at hrun
      subst hrun
      simp only [runSSH.loopLogged, hs, hr, hlog]
      exact ih (i + 1) _ _ hrest hlt
    · subst heq
      rw [hc] at hbad
      rcases hr : net.Run t i c with ⟨o, b, e⟩
      rw [hr] at hbad
      simp only at hbad
      obtain ⟨e, rfl⟩ := Option.ne_none_iff_exists'.1 hbad
      simp only [runSSH.loopLogged, hs, hr, hlog]

/-- The loop over a batch whose commands all succeed: the maps hold the
output of every command under its index, the error is nil, and the log has
one iteration per command. -/
theorem loopLogged_all_succeed (net : SshNet) (t : sshInfo) (cmds : List String)
    (hall : AllSucceed net t cmds) :
    ∀ (rest : List String) (i : Nat), cmds.drop i = rest → i ≤ cmds.length →
      runSSH.loopLogged net t i rest (stdoutUpTo net t cmds i) (stderrUpTo net t cmds i)
          (iterationEvents cmds i) =
        ((stdoutUpTo net t cmds cmds.length, stderrUpTo net t cmds cmds.length, none),
          iterationEvents cmds cmds.length) := by
  intro rest
  induction rest with
  | nil =>
    intro i hdrop hle
    have h1 : cmds.length ≤ i := List.drop_eq_nil_iff.1 hdrop
    have h2 : i = cmds.length := Nat.le_antisymm hle h1
    subst h2
    rfl
  | cons c rest ih =>
    intro i hdrop _
    obtain ⟨hlt, hc, hrest⟩ := drop_eq_cons hdrop
    obtain ⟨hs, hrun⟩ := hall i hlt
    rw [hc] at hrun
    rcases hr : net.Run t i c with ⟨o, b, e⟩
    rw [hr] at hrun
    simp only at hrun
    subst hrun
    have h1 : mapSet (stdoutUpTo net t cmds i) i o = stdoutUpTo net t cmds (i + 1) := by
      unfold stdoutUpTo
      rw [mapSet_range, map_range_succ, hc, hr]
    have h2 : mapSet (stderrUpTo net t cmds i) i b = stderrUpTo net t cmds (i + 1) := by
      unfold stderrUpTo
      rw [mapSet_range, map_range_succ, hc, hr]
    have hlog : iterationEvents cmds i ++
        [SshEvent.sessionOpened i, SshEvent.commandRun i c, SshEvent.outputRecorded i] =
        iterationEvents cmds (i + 1) := by
      rw [← hc]
      rfl
    simp only [runSSH.loopLogged, hs, hr, h1, h2, hlog]
    exact ih (i + 1) hrest hlt

/-- The logged `runSSH` when both hops are up and every command succeeds. -/
theorem runSSHLogged_all_succeed (net : SshNet) (b t : sshInfo) (cmds : List String)
    (hconn : Connected net b t) (hall : AllSucceed net t cmds) :
    runSSHLogged net b t cmds =
      ((stdoutUpTo net t cmds cmds.length, stderrUpTo net t cmds cmds.length, none),
        iterationEvents cmds cmds.length) := by
  obtain ⟨h1, h2, h3, h4, h5, h6⟩ := hconn
  have := loopLogged_all_succeed net t cmds hall cmds 0 rfl (Nat.zero_le _)
  simp only [runSSHLogged, h1, h2, h3, h4, h5, h6]
  simpa [stdoutUpTo, stderrUpTo, iterationEvents] using this

/-- The result of `runSSH` when both hops are up and every command succeeds. -/
theorem runSSH_all_succeed (net : SshNet) (b t : sshInfo) (cmds : List String)
    (hconn : Connected net b t) (hall : AllSucceed net t cmds) :
    runSSH net b t cmds =
      (stdoutUpTo net t cmds cmds.length, stderrUpTo net t cmds cmds.length, none) := by
  rw [← runSSHLogged_fst, runSSHLogged_all_succeed net b t cmds hconn hall]

theorem commandsRun_append (l1 l2 : List SshEvent) :
    commandsRun (l1 ++ l2) = commandsRun l1 ++ commandsRun l2 := by
  induction l1 with
  | nil => rfl
  | cons a l ih =>
    cases a <;> simp [commandsRun, ih]

/-- The commands of the first `m` iterations are the first `m` commands of
the batch, in list order. -/
theorem commandsRun_iterationEvents (cmds : List String) :
    ∀ m, m ≤ cmds.length → commandsRun (iterationEvents cmds m) = cmds.take m := by
  intro m
  induction m with
  | zero =>
    intro _
    rfl
  | succ m ih =>
    intro hm
    have hlt : m < cmds.length := hm
    rw [iterationEvents, commandsRun_append, ih (Nat.le_of_lt hlt)]
    have h1 : commandsRun [SshEvent.sessionOpened m, SshEvent.commandRun m (cmds.getD m ""),
        SshEvent.outputRecorded m] = [cmds.getD m ""] := rfl
    rw [h1, List.take_succ]
    congr 1
    simp [List.getD, List.getElem?_eq_getElem hlt]

/-! ## Order of execution within a batch -/

/-- C14: with both hops up and every session opening, `runSSH` runs the
commands strictly in list order and none after the first failure. The logged
`runSSH` returns what `runSSH` returns; if command `k` is the first to fail,
its log is that of the iterations `0..k` and the commands run are the first
`k + 1` commands of the batch; if every command succeeds, its log is that of
all iterations and the commands run are the whole batch. In the log of the
iterations each index has its session opened, its command run and its output
recorded before the session of the next index is opened. -/
theorem runSSH_runs_prefix_in_order (net : SshNet) (b t : sshInfo) (cmds : List String)
    (hconn : Connected net b t) :
    (runSSHLogged net b t cmds).1 = runSSH net b t cmds ∧
    (∀ k, FirstFailureAt net t cmds k →
      (runSSHLogged net b t cmds).2 = iterationEvents cmds (k + 1) ∧
      commandsRun (runSSHLogged net b t cmds).2 = cmds.take (k + 1)) ∧
    (AllSucceed net t cmds →
      (runSSHLogged net b t cmds).2 = iterationEvents cmds cmds.length ∧
      commandsRun (runSSHLogged net b t cmds).2 = cmds) ∧
    ∀ m, iterationEvents cmds (m + 1) =
      iterationEvents cmds m ++
        [SshEvent.sessionOpened m, SshEvent.commandRun m (cmds.getD m ""),
          SshEvent.outputRecorded m] := by
  refine ⟨runSSHLogged_fst net b t cmds, ?_, ?_, fun _ => rfl⟩
  · intro k hfail
    have hlog : (runSSHLogged net b t cmds).2 = iterationEvents cmds (k + 1) := by
      obtain ⟨h1, h2, h3, h4, h5, h6⟩ := hconn
      have := loopLogged_first_failure net t cmds k hfail cmds 0 [] [] rfl (Nat.zero_le k)
      simp only [runSSHLogged, h1, h2, h3, h4, h5, h6]
      simpa [iterationEvents] using this
    refine ⟨hlog, ?_⟩
    rw [hlog]
    exact commandsRun_iterationEvents cmds (k + 1) hfail.1
  · intro hall
    have hlog : (runSSHLogged net b t cmds).2 = iterationEvents cmds cmds.length := by
      rw [runSSHLogged_all_succeed net b t cmds hconn hall]
    refine ⟨hlog, ?_⟩
    rw [hlog, commandsRun_iterationEvents cmds cmds.length (Nat.le_refl _), List.take_length]

/-- C14 at the example fleet: of the batch `echo hi`, `false`, `ls` on `vm1`
the commands run are `echo hi` and `false`, in that order. -/
theorem runSSH_runs_prefix_in_order_witness :
    commandsRun (runSSHLogged exNet (bastionSshInfoOf exStore "ns1" "mcis1" "bastion1" "")
      (targetSshInfoOf exStore "ns1" "mcis1" "vm1" "") ["echo hi", "false", "ls"]).2 =
      ["echo hi", "false", "ls"].take 2 :=
  ((runSSH_runs_prefix_in_order exNet (bastionSshInfoOf exStore "ns1" "mcis1" "bastion1" "")
    (targetSshInfoOf exStore "ns1" "mcis1" "vm1" "") ["echo hi", "false", "ls"]
    ⟨rfl, rfl, rfl, rfl, rfl, rfl⟩).2.1 1
    ⟨by decide, fun _ _ => rfl, fun j hj => by interval_cases j; rfl,
      fun h => by
        have h2 : (exNet.Run (targetSshInfoOf exStore "ns1" "mcis1" "vm1" "") 1
            (["echo hi", "false", "ls"].getD 1 "")).2.2 = some "Process exited with status 1" :=
          rfl
        rw [h2] at h
        cases h⟩).2

/-! ## Lemmas on the key sets -/

theorem mem_mapKeys_mapSet {m : IntMap} {i j : Nat} {v : String}
    (h : j ∈ mapKeys (mapSet m i v)) : j ∈ mapKeys m ∨ j = i := by
  unfold mapKeys mapSet at h
  rw [List.map_append, List.mem_append] at h
  rcases h with h | h
  · left
    obtain ⟨p, hp, rfl⟩ := List.mem_map.1 h
    exact List.mem_map.2 ⟨p, (List.mem_filter.1 hp).1, rfl⟩
  · right
    simpa using h

/-- The loop writes no key at or beyond the end of the batch. -/
theorem runSSH_loop_keys_lt (net : SshNet) (t : sshInfo) :
    ∀ (rest : List String) (i : Nat) (so se : IntMap),
      (∀ j ∈ mapKeys so, j < i) → (∀ j ∈ mapKeys se, j < i) →
      (∀ j ∈ mapKeys (runSSH.loop net t i rest so se).1, j < i + rest.length) ∧
      (∀ j ∈ mapKeys (runSSH.loop net t i rest so se).2.1, j < i + rest.length) := by
  intro rest
  induction rest with
  | nil =>
    intro i so se hso hse
    exact ⟨hso, hse⟩
  | cons c rest ih =>
    intro i so se hso hse
    have hlen : i + (c :: rest).length = i + 1 + rest.length := by
      simp only [List.length_cons]
      omega
    simp only [runSSH.loop]
    cases net.NewSession t (i + 1) with
    | some err =>
      exact ⟨fun j hj => by have := hso j hj; omega, fun j hj => by have := hse j hj; omega⟩
    | none =>
      rcases hr : net.Run t i c with ⟨o, b, e⟩
      cases e with
      | some err =>
        refine ⟨fun j hj => by have := hso j hj; omega, fun j hj => ?_⟩
        rcases mem_mapKeys_mapSet hj with h | h
        · have := hse j h
          omega
        · omega
      | none =>
        simp only
        rw [hlen]
        apply ih
        · intro j hj
          rcases mem_mapKeys_mapSet hj with h | h
          · have := hso j h
            omega
          · omega
        · intro j hj
          rcases mem_mapKeys_mapSet hj with h | h
          · have := hse j h
            omega
          · omega

/-- The maps returned by `runSSH` have no key at or beyond the length of the
batch, whatever the network does. -/
theorem runSSH_keys_lt (net : SshNet) (b t : sshInfo) (cmds : List String) :
    (∀ j ∈ mapKeys (runSSH net b t cmds).1, j < cmds.length) ∧
    (∀ j ∈ mapKeys (runSSH net b t cmds).2.1, j < cmds.length) := by
  have hloop := runSSH_loop_keys_lt net t cmds 0 [] [] (by simp [mapKeys]) (by simp [mapKeys])
  simp only [Nat.zero_add] at hloop
  unfold runSSH
  cases net.ParsePrivateKey b.PrivateKey <;> simp only [mapKeys, List.map_nil, List.not_mem_nil,
    false_implies, implies_true, and_self]
  cases net.ParsePrivateKey t.PrivateKey <;> simp only [List.map_nil, List.not_mem_nil,
    false_implies, implies_true, and_self]
  cases net.Dial b <;> simp only [List.map_nil, List.not_mem_nil,
    false_implies, implies_true, and_self]
  cases net.DialThrough b t <;> simp only [List.map_nil, List.not_mem_nil,
    false_implies, implies_true, and_self]
  cases net.NewClientConn t <;> simp only [List.map_nil, List.not_mem_nil,
    false_implies, implies_true, and_self]
  cases net.NewSession t 0 <;> simp only [List.map_nil, List.not_mem_nil,
    false_implies, implies_true, and_self]
  exact hloop

/-- What `RunRemoteCommand` returns, when it returns: the bastion error with
two empty maps, or what `runSSH` returns for some pair of connection data. -/
theorem RunRemoteCommand_ret_cases (net : SshNet) (s : Store)
    (nsId mcisId vmId givenUserName : String) (cmds : List String)
    (r : IntMap × IntMap × GoError)
    (h : RunRemoteCommand net s nsId mcisId vmId givenUserName cmds = .ret r) :
    (∃ e, r = ([], [], some e)) ∨ ∃ b t, r = runSSH net b t cmds := by
  cases herr : (GetBastionNodes s nsId mcisId vmId).2 with
  | some e =>
    rw [RunRemoteCommand_bastion_error net s nsId mcisId vmId givenUserName cmds e herr] at h
    left
    exact ⟨e, by cases h; rfl⟩
  | none =>
    cases hl : sliceElems (GetBastionNodes s nsId mcisId vmId).1.VmId with
    | nil =>
      exfalso
      unfold RunRemoteCommand at h
      rcases hg : GetBastionNodes s nsId mcisId vmId with ⟨bi, e⟩
      rw [hg] at herr hl h
      simp only at herr hl
      subst herr
      simp [hl] at h
    | cons bn more =>
      rw [RunRemoteCommand_eq_runSSH net s nsId mcisId vmId givenUserName cmds bn more herr hl]
        at h
      right
      exact ⟨_, _, by cases h; rfl⟩

/-! ## Positional alignment of the three maps -/

/-- C15: indices of commands, standard output and standard error align. In
every case in which the unit returns, the result it appends has the `Command`
map of the whole batch, and every key of its `Stdout` and of its `Stderr` is
a key of its `Command`. When the bastion is resolved, both hops are up and
all `n` commands succeed, the three maps have exactly the keys `0..n-1`, and
under each index `i` stand the `i`-th command of the batch and the standard
output and standard error captured for that same command. -/
theorem results_align_by_index (net : SshNet) (s : Store)
    (nsId mcisId vmId givenUserName : String) (cmds : List String) (acc : Slice SshCmdResult) :
    (∀ so se e, RunRemoteCommand net s nsId mcisId vmId givenUserName cmds = .ret (so, se, e) →
      RunRemoteCommandAsync net s nsId mcisId vmId givenUserName cmds acc =
        .ret (sliceAppend acc
          ⟨mcisId, vmId, (GetVmIp s nsId mcisId vmId).1, commandMap cmds, so, se, e⟩) ∧
      (∀ j ∈ mapKeys so, j ∈ mapKeys (commandMap cmds)) ∧
      (∀ j ∈ mapKeys se, j ∈ mapKeys (commandMap cmds))) ∧
    (∀ bn more, (GetBastionNodes s nsId mcisId vmId).2 = none →
      sliceElems (GetBastionNodes s nsId mcisId vmId).1.VmId = bn :: more →
      Connected net (bastionSshInfoOf s nsId mcisId bn givenUserName)
        (targetSshInfoOf s nsId mcisId vmId givenUserName) →
      AllSucceed net (targetSshInfoOf s nsId mcisId vmId givenUserName) cmds →
      RunRemoteCommandAsync net s nsId mcisId vmId givenUserName cmds acc =
        .ret (sliceAppend acc
          ⟨mcisId, vmId, (GetVmIp s nsId mcisId vmId).1, commandMap cmds,
            stdoutUpTo net (targetSshInfoOf s nsId mcisId vmId givenUserName) cmds cmds.length,
            stderrUpTo net (targetSshInfoOf s nsId mcisId vmId givenUserName) cmds cmds.length,
            none⟩) ∧
      mapKeys (commandMap cmds) = List.range cmds.length ∧
      mapKeys (stdoutUpTo net (targetSshInfoOf s nsId mcisId vmId givenUserName) cmds
        cmds.length) = List.range cmds.length ∧
      mapKeys (stderrUpTo net (targetSshInfoOf s nsId mcisId vmId givenUserName) cmds
        cmds.length) = List.range cmds.length ∧
      ∀ i, i < cmds.length →
        mapGet (commandMap cmds) i = some (cmds.getD i "") ∧
        mapGet (stdoutUpTo net (targetSshInfoOf s nsId mcisId vmId givenUserName) cmds
          cmds.length) i =
          some (net.Run (targetSshInfoOf s nsId mcisId vmId givenUserName) i
            (cmds.getD i "")).1 ∧
        mapGet (stderrUpTo net (targetSshInfoOf s nsId mcisId vmId givenUserName) cmds
          cmds.length) i =
          some (net.Run (targetSshInfoOf s nsId mcisId vmId givenUserName) i
            (cmds.getD i "")).2.1) := by
  have hkeys : mapKeys (commandMap cmds) = List.range cmds.length := by
    rw [commandMap_eq]
    exact mapKeys_map_range _ _
  refine ⟨?_, ?_⟩
  · intro so se e hret
    refine ⟨RunRemoteCommandAsync_of_ret net s nsId mcisId vmId givenUserName cmds acc so se e
      hret, ?_⟩
    rw [hkeys]
    rcases RunRemoteCommand_ret_cases net s nsId mcisId vmId givenUserName cmds _ hret with
      ⟨e1, h1⟩ | ⟨b, t, h1⟩
    · simp only [Prod.mk.injEq] at h1
      obtain ⟨rfl, rfl, _⟩ := h1
      simp [mapKeys]
    · have hlt := runSSH_keys_lt net b t cmds
      rw [← h1] at hlt
      exact ⟨fun j hj => List.mem_range.2 (hlt.1 j hj),
        fun j hj => List.mem_range.2 (hlt.2 j hj)⟩
  · intro bn more herr hlist hconn hall
    have hrun : RunRemoteCommand net s nsId mcisId vmId givenUserName cmds =
        .ret (stdoutUpTo net (targetSshInfoOf s nsId mcisId vmId givenUserName) cmds cmds.length,
          stderrUpTo net (targetSshInfoOf s nsId mcisId vmId givenUserName) cmds cmds.length,
          none) := by
      rw [RunRemoteCommand_eq_runSSH net s nsId mcisId vmId givenUserName cmds bn more herr hlist,
        runSSH_all_succeed net _ _ cmds hconn hall]
    refine ⟨RunRemoteCommandAsync_of_ret net s nsId mcisId vmId givenUserName cmds acc _ _ _
      hrun, hkeys, mapKeys_map_range _ _, mapKeys_map_range _ _, ?_⟩
    intro i hi
    refine ⟨?_, mapGet_map_range _ _ i hi, mapGet_map_range _ _ i hi⟩
    rw [commandMap_eq]
    exact mapGet_map_range _ _ i hi

/-- C15 at the example fleet: the batch `echo hi`, `ls` succeeds on `vm1`; the
three maps of its result have the keys 0 and 1, command, standard output and
standard error of the same command under each. -/
theorem results_align_by_index_witness :
    RunRemoteCommandAsync exNet exStore "ns1" "mcis1" "vm1" "" ["echo hi", "ls"] none =
      .ret (some [⟨"mcis1", "vm1", "1.1.1.1", [(0, "echo hi"), (1, "ls")],
        [(0, "echo hi"), (1, "ls")], [(0, ""), (1, "")], none⟩]) := by
  have h := ((results_align_by_index exNet exStore "ns1" "mcis1" "vm1" "" ["echo hi", "ls"]
    none).2 "bastion1" [] rfl rfl ⟨rfl, rfl, rfl, rfl, rfl, rfl⟩
    (fun j hj => by
      have hj2 : j < 2 := hj
      interval_cases j
      · exact ⟨rfl, rfl⟩
      · exact ⟨rfl, rfl⟩)).1
  rw [h]
  rfl

end CbTumblebug
